import Mathlib

/-!
# Verification of the lettabot routing and session-orchestration layer

A shallow embedding, in Lean 4, of the routing and session-orchestration core
of the lettabot repository:

* `src/routing/router.ts` — `MessageRouter` (`getMatchLevel`,
  `getSpecificityScore`, `sortBySpecificity`, `route`, `createRouter`);
* `src/core/agent-instance.ts` — `AgentInstance` (`processMessage` /
  `processQueue` / `handleMessage`, `sendToAgent`, `reset`,
  `handleSessionResult`, `saveState`);
* the conversation-key resolvers `resolveConversationKey` and
  `resolveHeartbeatConversationKey` (modelled from the specification: only
  their unit tests appear in the provided sources).

Remote I/O (the letta-code SDK: `createAgent`, `resumeSession`,
`createSession`, `Session.initialize/send/stream/close`), the channel adapter
(`sendMessage`, `editMessage`, `sendTypingIndicator`, `supportsEditing`), the
wall clock and the 500 ms streaming throttle are external collaborators; they
are modelled by an explicit environment (`Env`) that fixes the outcome of
every collaborator call, and each orchestration function returns, besides its
result, the ordered trace of collaborator calls it performs (`Event`).
JavaScript string truthiness (`undefined` and `""` are falsy) is modelled by
`jsStr`.
-/

/-- JavaScript truthiness projection for optional strings: `undefined` and the
empty string are falsy.  `jsStr o = some s` exactly when the JS value is a
truthy string `s`. -/
def jsStr : Option String → Option String
  | none => none
  | some s => if s = "" then none else some s

/-- ASCII lowering of one character, as `String.prototype.toLowerCase` acts on
the ASCII channel identifiers used by the repository. -/
def lowerCh (c : Char) : Char :=
  if 'A' ≤ c ∧ c ≤ 'Z' then Char.ofNat (c.toNat + 32) else c

/-- ASCII `toLowerCase` on strings (channel ids are ASCII). -/
def lowerString (s : String) : String :=
  ⟨s.data.map lowerCh⟩

/-- `String.prototype.trim`, restricted to the usual whitespace characters. -/
def trimString (s : String) : String :=
  ⟨((s.data.dropWhile Char.isWhitespace).reverse.dropWhile Char.isWhitespace).reverse⟩

/-! ## Router (`src/routing/router.ts`) -/

/-- `'dm' | 'group'` peer kinds. -/
inductive PeerKind where
  | dm
  | group
deriving DecidableEq, Repr

/-- `match.peer` pattern: `{kind: 'dm'|'group', id: string}`. -/
structure PeerMatch where
  kind : PeerKind
  id : String
deriving DecidableEq, Repr

/-- The `match` object of a binding (`match` is a Lean keyword, so the field
is called `matchSpec` here): `{channel, accountId?, peer?}`. -/
structure BindingMatch where
  channel : String
  accountId : Option String := none
  peer : Option PeerMatch := none
deriving DecidableEq, Repr

/-- `AgentBinding`: `{agentId, match}`. -/
structure AgentBinding where
  agentId : String
  matchSpec : BindingMatch
deriving DecidableEq, Repr

/-- `RoutingContext`: `{channel, accountId?, peerId?, peerKind?}`. -/
structure RoutingContext where
  channel : String
  accountId : Option String := none
  peerId : Option String := none
  peerKind : Option PeerKind := none
deriving DecidableEq, Repr

/-- Match specificity level of a `RoutingResult`. -/
inductive MatchLevel where
  | peer
  | account
  | channel
  | default
deriving DecidableEq, Repr

/-- `RoutingResult`: `{agentId, matchedBinding | null, matchLevel}`. -/
structure RoutingResult where
  agentId : String
  matchedBinding : Option AgentBinding
  matchLevel : MatchLevel
deriving DecidableEq, Repr

/-- `MessageRouter.getMatchLevel(binding, ctx)`: `null` when the binding does
not match the context, otherwise its specificity level.  Follows the source
line by line; JS truthiness tests on optional strings go through `jsStr`. -/
def getMatchLevel (binding : AgentBinding) (ctx : RoutingContext) : Option MatchLevel :=
  if binding.matchSpec.channel ≠ ctx.channel then
    none
  else
    match binding.matchSpec.peer with
    | some p =>
      if (jsStr ctx.peerId).isNone || ctx.peerKind.isNone then
        none
      else if some p.kind ≠ ctx.peerKind then
        none
      else if some p.id ≠ jsStr ctx.peerId then
        none
      else if (jsStr binding.matchSpec.accountId).isSome ∧
          binding.matchSpec.accountId ≠ ctx.accountId then
        none
      else
        some MatchLevel.peer
    | none =>
      if (jsStr binding.matchSpec.accountId).isSome then
        if binding.matchSpec.accountId ≠ ctx.accountId then none
        else some MatchLevel.account
      else
        some MatchLevel.channel

/-- `MessageRouter.getSpecificityScore`: peer 100, accountId 10, baseline 1. -/
def getSpecificityScore (binding : AgentBinding) : Nat :=
  (if binding.matchSpec.peer.isSome then 100 else 0) +
    (if (jsStr binding.matchSpec.accountId).isSome then 10 else 0) + 1

/-- The comparator of `sortBySpecificity`: `(a, b) => scoreB - scoreA`, i.e.
`a` may precede `b` exactly when `score b ≤ score a`. -/
def specLE (a b : AgentBinding) : Bool :=
  getSpecificityScore b ≤ getSpecificityScore a

/-- `MessageRouter.sortBySpecificity`: `[...bindings].sort((a,b) => scoreB -
scoreA)`.  ECMAScript `Array.prototype.sort` is a stable sort, and a stable
sort ordered by a fixed comparator is unique, so the stable `List.mergeSort`
is a faithful model. -/
def sortBySpecificity (bindings : List AgentBinding) : List AgentBinding :=
  bindings.mergeSort specLE

/-- The `MessageRouter` after construction: bindings pre-sorted once, plus the
configured default agent id. -/
structure MessageRouter where
  bindings : List AgentBinding
  defaultAgentId : String

/-- The `MessageRouter` constructor: sorts the bindings by specificity. -/
def createRouter (bindings : List AgentBinding) (defaultAgentId : String) : MessageRouter :=
  { bindings := sortBySpecificity bindings, defaultAgentId := defaultAgentId }

/-- The scan of `route`: first matching binding of the (pre-sorted) list wins;
no binding matches means the configured default agent. -/
def routeList (ctx : RoutingContext) (defaultAgentId : String) :
    List AgentBinding → RoutingResult
  | [] => { agentId := defaultAgentId, matchedBinding := none, matchLevel := MatchLevel.default }
  | binding :: rest =>
    match getMatchLevel binding ctx with
    | some lvl =>
      { agentId := binding.agentId, matchedBinding := some binding, matchLevel := lvl }
    | none => routeList ctx defaultAgentId rest

/-- `MessageRouter.route(ctx)`. -/
def route (r : MessageRouter) (ctx : RoutingContext) : RoutingResult :=
  routeList ctx r.defaultAgentId r.bindings

/-! ## Conversation-key resolvers

The functions live in `src/core/bot.ts`, which is not among the provided
sources; only their unit tests are.  They are modelled from the
specification (§4.2), and the models reproduce every provided unit test. -/

/-- Modelled from the spec: `resolveConversationKey(channel, mode, overrides)`
of `src/core/bot.ts` (absent from the provided sources).  Spec §4.2:
per-chat / per-channel mode → lowercased channel id; shared mode → lowercased
channel id iff the lowercased channel is in the override set, else
`"shared"`; an undefined mode behaves as shared. -/
def resolveConversationKey (channel : String) (mode : Option String)
    (overrides : List String) : String :=
  let ch := lowerString channel
  if mode = some ("per-chat") ∨ mode = some ("per-channel") then ch
  else if ch ∈ overrides then ch
  else ("shared")

/-- Modelled from the spec: `resolveHeartbeatConversationKey(mode,
heartbeatSetting, overrides, lastActiveChannel?)` of `src/core/bot.ts`
(absent from the provided sources).  Spec §4.2: per-channel mode →
`"dedicated"` gives `"heartbeat"`, `"last-active"` gives the last-active
channel (else `"shared"`), any other literal is returned verbatim; shared
mode → `"shared"` unless the setting is `"last-active"` and a last-active
channel is present whose lowercased form is in the override set, in which
case that channel.  Channel comparisons are case-insensitive.  A missing
setting defaults to `"last-active"` (the documented default of
`BotConfig.heartbeatConversation`). -/
def resolveHeartbeatConversationKey (mode : String) (heartbeatSetting : Option String)
    (overrides : List String) (lastActiveChannel : Option String) : String :=
  let setting := heartbeatSetting.getD ("last-active")
  if mode = ("per-channel") then
    if setting = ("dedicated") then ("heartbeat")
    else if setting = ("last-active") then
      match lastActiveChannel with
      | some ch => ch
      | none => ("shared")
    else setting
  else
    if setting = ("last-active") then
      match lastActiveChannel with
      | some ch => if lowerString ch ∈ overrides then ch else ("shared")
      | none => ("shared")
    else ("shared")

example : lowerString ("SLACK") = ("slack") := by decide
example : resolveConversationKey ("telegram") (some ("shared")) [] = ("shared") := by decide
example : resolveConversationKey ("SLACK") (some ("shared")) [("slack")] = ("slack") := by decide
example : resolveConversationKey ("telegram") (some ("per-channel")) [] = ("telegram") := by decide
example : resolveHeartbeatConversationKey ("per-channel") (some ("dedicated")) [] none = ("heartbeat") := by decide
example : resolveHeartbeatConversationKey ("per-channel") (some ("last-active")) [] none = ("shared") := by decide
example : resolveHeartbeatConversationKey ("shared") (some ("last-active")) [("slack")] (some ("slack")) = ("slack") := by decide
example : resolveHeartbeatConversationKey ("shared") (some ("dedicated")) [("slack")] (some ("slack")) = ("shared") := by decide

/-! ## AgentInstance (`src/core/agent-instance.ts`)

The data model: persisted `AgentState`, inbound messages, the stream events
of a remote session, and the environment fixing every collaborator call. -/

/-- `lastMessageTarget` persisted for heartbeats. -/
structure LastMessageTarget where
  channel : String
  chatId : String
  messageId : Option String
  updatedAt : String
deriving DecidableEq, Repr

/-- `AgentState` persisted to disk: `{agentId, conversationId?, baseUrl?,
createdAt?, lastUsedAt?, lastMessageTarget?}`.  `reset()` replaces it by
`{agentId: null}`, i.e. every field cleared. -/
structure AgentState where
  agentId : Option String := none
  conversationId : Option String := none
  baseUrl : Option String := none
  createdAt : Option String := none
  lastUsedAt : Option String := none
  lastMessageTarget : Option LastMessageTarget := none
deriving DecidableEq, Repr

/-- The fields of `InboundMessage` the orchestration layer reads. -/
structure InboundMessage where
  channel : String
  chatId : String
  userId : String
  messageId : Option String := none
  text : String
  threadId : Option String := none
deriving DecidableEq, Repr

/-- One typed event of `session.stream()`: assistant-text chunks, the
terminal result event, and the other event kinds the loops ignore. -/
inductive StreamMsg where
  | assistant (content : String)
  | result
  | other
deriving DecidableEq, Repr

/-- A live session handle: obtained either from `resumeSession(target)` or
from the recovery path `createSession(agentId)`. -/
inductive SessHandle where
  | resumed (target : String)
  | created (agentId : String)
deriving DecidableEq, Repr

/-- Collaborator-fixed behaviour of one session handle: the outcome of
`initialize()` (`none` = success, `some e` = it rejects with error `e` —
a 30 s timeout is treated identically to a remote failure), the outcome of
`send(text)`, the event sequence of `stream()` (modelled as a completed
sequence — both loops consume it up to its terminal result event), and the
session's resolved `agentId` / `conversationId` properties read by
`handleSessionResult`. -/
structure SessionBehavior where
  init : Option String
  send : Option String
  stream : List StreamMsg
  agentId : Option String
  conversationId : Option String

/-- Collaborator-fixed behaviour of the channel adapter within one
`handleMessage` call: the awaited `sendTypingIndicator` outcome, the
`supportsEditing?.() ?? true` capability, and the outcome of the n-th
`sendMessage` (a message id, or a rejection) and n-th `editMessage` call. -/
structure AdapterEnv where
  typing : Option String
  canEdit : Bool
  send : Nat → Except String String
  edit : Nat → Option String

/-- The environment of one orchestration call: outcomes of every collaborator
interaction.  `tick n` abstracts the 500 ms throttle — whether
`Date.now() - lastUpdate > 500` evaluates true at the n-th assistant chunk.
`formatEnvelope` is the message-formatting collaborator
(`formatMessageEnvelope`), whose content the orchestration layer never
inspects. -/
structure Env where
  createAgent : Except String String
  resumeBehavior : String → SessionBehavior
  createBehavior : String → SessionBehavior
  adapter : AdapterEnv
  tick : Nat → Bool
  now : String
  baseUrl : Option String
  formatEnvelope : InboundMessage → String

/-- The behaviour the environment assigns to a session handle. -/
def sessionBehaviorOf (env : Env) : SessHandle → SessionBehavior
  | SessHandle.resumed t => env.resumeBehavior t
  | SessHandle.created a => env.createBehavior a

/-- The ordered trace of collaborator calls one orchestration run performs.
`saveState` is the synchronous best-effort write of the state file;
`setEnvAgentId` is the `process.env.LETTA_AGENT_ID` assignment; `initCall`
and `sendCall` carry the timeout bound their `withTimeout` wrapper races
against, while `sendRawCall` is `sendToAgent`'s un-wrapped `session.send`.
The fire-and-forget typing-indicator interval is traced by its
`setInterval` / `clearInterval` pair (its per-tick sends are discarded
fire-and-forget operations that affect no state). -/
inductive Event where
  | saveState (s : AgentState)
  | typing
  | setEnvAgentId (v : Option String)
  | createAgentCall
  | resumeSessionCall (target : String)
  | createSessionCall (agentId : String)
  | initCall (timeoutMs : Nat)
  | sendCall (text : String) (timeoutMs : Nat)
  | sendRawCall (text : String)
  | adapterSendMsg (chatId : String) (text : String) (threadId : Option String)
  | adapterEditMsg (chatId : String) (messageId : String) (text : String)
  | typingIntervalStart
  | typingIntervalStop
  | sessionCloseCall
  | updateAgentNameCall (agentId : String) (name : String)
deriving DecidableEq, Repr

/-- The `initTimeoutMs` constant of `handleMessage`: 30 s, used for both the
`initialize` and the `send` `withTimeout` wrappers. -/
def initTimeoutMs : Nat := 30000

/-- `AgentInstance.reset()`: replaces the state by `{agentId: null}` and
writes it to disk. -/
def reset (_st : AgentState) : AgentState × List Event :=
  ({ agentId := none }, [Event.saveState { agentId := none }])

/-- `AgentInstance.setAgentId(id)`. -/
def setAgentId (st : AgentState) (agentId : String) : AgentState × List Event :=
  let st1 := { st with agentId := some agentId }
  (st1, [Event.saveState st1])

/-- `AgentInstance.handleSessionResult(session)`: persist a newly observed
agent id (with base url, `lastUsedAt`, first-time `createdAt`) and a newly
observed conversation id, then best-effort set the display name on a freshly
created agent (failures swallowed). -/
def handleSessionResult (env : Env) (name : String) (sb : SessionBehavior)
    (st : AgentState) : AgentState × List Event :=
  let isNewAgent := (jsStr st.agentId).isNone && (jsStr sb.agentId).isSome
  let st1 :=
    match jsStr sb.agentId with
    | some sa =>
      if some sa ≠ st.agentId then
        { st with agentId := some sa,
                  baseUrl := some ((jsStr env.baseUrl).getD ("https://api.letta.com")),
                  lastUsedAt := some env.now,
                  createdAt := if (jsStr st.createdAt).isNone then some env.now else st.createdAt }
      else st
    | none => st
  let st2 :=
    match jsStr sb.conversationId with
    | some sc => if some sc ≠ st1.conversationId then { st1 with conversationId := some sc } else st1
    | none => st1
  (st2, [Event.saveState st2] ++
    (match jsStr sb.agentId with
      | some sa => if isNewAgent then [Event.updateAgentNameCall sa name] else []
      | none => []))

/-- The session-selection block of `handleMessage` (lines with the
`conversationId` / `agentId` / `createAgent` precedence): returns the trace
of the block and either the established session handle with the
`usedSpecificConversation` / `usedDefaultConversation` flags, or the error a
failed `createAgent` rejects with. -/
def selectSessionForMessage (env : Env) (st : AgentState) :
    List Event × Except String (SessHandle × Bool × Bool) :=
  match jsStr st.conversationId with
  | some cid =>
    ([Event.setEnvAgentId (jsStr st.agentId), Event.resumeSessionCall cid],
      Except.ok (SessHandle.resumed cid, true, false))
  | none =>
    match jsStr st.agentId with
    | some aid =>
      ([Event.setEnvAgentId (some aid), Event.resumeSessionCall aid],
        Except.ok (SessHandle.resumed aid, false, true))
    | none =>
      match env.createAgent with
      | Except.ok newId =>
        ([Event.createAgentCall, Event.resumeSessionCall newId],
          Except.ok (SessHandle.resumed newId, false, false))
      | Except.error e => ([Event.createAgentCall], Except.error e)

/-- The session-selection block of `sendToAgent`: identical precedence, but
without the `process.env.LETTA_AGENT_ID` assignments. -/
def selectSessionForSend (env : Env) (st : AgentState) :
    List Event × Except String (SessHandle × Bool × Bool) :=
  match jsStr st.conversationId with
  | some cid =>
    ([Event.resumeSessionCall cid], Except.ok (SessHandle.resumed cid, true, false))
  | none =>
    match jsStr st.agentId with
    | some aid =>
      ([Event.resumeSessionCall aid], Except.ok (SessHandle.resumed aid, false, true))
    | none =>
      match env.createAgent with
      | Except.ok newId =>
        ([Event.createAgentCall, Event.resumeSessionCall newId],
          Except.ok (SessHandle.resumed newId, false, false))
      | Except.error e => ([Event.createAgentCall], Except.error e)

/-- The recovery decision of `handleMessage`'s catch block around
`initialize`: `if (usedSpecificConversation && this.state.agentId) … else if
(usedDefaultConversation && this.state.agentId) … else throw`; `some aid`
means "discard the session and create a new one against `aid`". -/
def msgRecoveryTarget (usedSpecific usedDefault : Bool) (agentId : Option String) :
    Option String :=
  if usedSpecific && (jsStr agentId).isSome then jsStr agentId
  else if usedDefault && (jsStr agentId).isSome then jsStr agentId
  else none

/-- The recovery decision of `sendToAgent`'s catch block around `send`:
same condition structure as `msgRecoveryTarget`. -/
def sendRecoveryTarget (usedSpecific usedDefault : Bool) (agentId : Option String) :
    Option String :=
  if usedSpecific && (jsStr agentId).isSome then jsStr agentId
  else if usedDefault && (jsStr agentId).isSome then jsStr agentId
  else none

/-- Step 2 of `handleMessage`: `initialize` under the 30 s timeout with the
single recreate-and-retry recovery.  Returns the trace of the step and either
the session that successfully initialized (the selected one, or the
`createSession` replacement) or the unrecoverable error. -/
def initWithRecovery (env : Env) (st : AgentState) (sess : SessHandle)
    (usedSpecific usedDefault : Bool) : List Event × Except String SessHandle :=
  match (sessionBehaviorOf env sess).init with
  | none => ([Event.initCall initTimeoutMs], Except.ok sess)
  | some e =>
    match msgRecoveryTarget usedSpecific usedDefault st.agentId with
    | some aid =>
      match (env.createBehavior aid).init with
      | none =>
        ([Event.initCall initTimeoutMs, Event.sessionCloseCall,
          Event.createSessionCall aid, Event.initCall initTimeoutMs],
          Except.ok (SessHandle.created aid))
      | some e2 =>
        ([Event.initCall initTimeoutMs, Event.sessionCloseCall,
          Event.createSessionCall aid, Event.initCall initTimeoutMs],
          Except.error e2)
    | none => ([Event.initCall initTimeoutMs], Except.error e)

/-- The mutable locals of the streaming / delivery section of
`handleMessage`, together with the adapter call counters that select the
collaborator outcomes, the threaded agent state, and the accumulated trace. -/
structure LoopSt where
  response : String
  messageId : Option String
  sentAnyMessage : Bool
  aIdx : Nat
  sIdx : Nat
  eIdx : Nat
  state : AgentState
  events : List Event
deriving Repr

/-- The incremental streaming-update block of `handleMessage`: on an
assistant chunk whose throttle window elapsed (for adapters supporting
editing), edit the visible message if one exists, else create it; errors are
swallowed. -/
def streamUpdate (env : Env) (msg : InboundMessage) (ls : LoopSt) : LoopSt :=
  if env.adapter.canEdit && env.tick ls.aIdx && decide (0 < ls.response.length) then
    match ls.messageId with
    | some mid =>
      match env.adapter.edit ls.eIdx with
      | none =>
        { ls with sentAnyMessage := true, eIdx := ls.eIdx + 1,
                  events := ls.events ++ [Event.adapterEditMsg msg.chatId mid ls.response] }
      | some _ =>
        { ls with eIdx := ls.eIdx + 1,
                  events := ls.events ++ [Event.adapterEditMsg msg.chatId mid ls.response] }
    | none =>
      match env.adapter.send ls.sIdx with
      | Except.ok mid =>
        { ls with messageId := some mid, sentAnyMessage := true, sIdx := ls.sIdx + 1,
                  events := ls.events ++ [Event.adapterSendMsg msg.chatId ls.response msg.threadId] }
      | Except.error _ =>
        { ls with sIdx := ls.sIdx + 1,
                  events := ls.events ++ [Event.adapterSendMsg msg.chatId ls.response msg.threadId] }
  else ls

/-- Advance the assistant-chunk counter that indexes the throttle
abstraction `Env.tick`. -/
def bumpA (ls : LoopSt) : LoopSt :=
  { ls with aIdx := ls.aIdx + 1 }

/-- `handleSessionResult` applied to the threaded loop state (result event
of the stream): update the agent state and append the emitted events. -/
def applyResult (env : Env) (name : String) (sb : SessionBehavior) (ls : LoopSt) : LoopSt :=
  { ls with state := (handleSessionResult env name sb ls.state).1,
            events := ls.events ++ (handleSessionResult env name sb ls.state).2 }

/-- The `for await (streamMsg of session.stream())` loop of `handleMessage`:
accumulate assistant text, push throttled incremental updates, and on the
terminal result event run `handleSessionResult` and break. -/
def streamLoop (env : Env) (name : String) (msg : InboundMessage) (sb : SessionBehavior) :
    List StreamMsg → LoopSt → LoopSt
  | [], ls => ls
  | StreamMsg.assistant content :: rest, ls =>
    streamLoop env name msg sb rest
      (bumpA (streamUpdate env msg { ls with response := ls.response ++ content }))
  | StreamMsg.result :: _, ls => applyResult env name sb ls
  | StreamMsg.other :: rest, ls => streamLoop env name msg sb rest ls

/-- The final-delivery block of `handleMessage`: if the accumulated response
is non-blank, edit the in-place message if one exists, else send fresh; if
that send throws and no message had been created, retry the fresh send once
(a failure of the retry propagates to the outer catch). -/
def finalSend (env : Env) (msg : InboundMessage) (ls : LoopSt) :
    LoopSt × Except String Unit :=
  if trimString ls.response ≠ ("") then
    match ls.messageId with
    | some mid =>
      match env.adapter.edit ls.eIdx with
      | none =>
        ({ ls with eIdx := ls.eIdx + 1,
                   events := ls.events ++ [Event.adapterEditMsg msg.chatId mid ls.response] },
          Except.ok ())
      | some _ =>
        ({ ls with eIdx := ls.eIdx + 1,
                   events := ls.events ++ [Event.adapterEditMsg msg.chatId mid ls.response] },
          Except.ok ())
    | none =>
      match env.adapter.send ls.sIdx with
      | Except.ok _ =>
        ({ ls with sIdx := ls.sIdx + 1, sentAnyMessage := true,
                   events := ls.events ++ [Event.adapterSendMsg msg.chatId ls.response msg.threadId] },
          Except.ok ())
      | Except.error _ =>
        match env.adapter.send (ls.sIdx + 1) with
        | Except.ok _ =>
          ({ ls with sIdx := ls.sIdx + 2, sentAnyMessage := true,
                     events := ls.events ++ [Event.adapterSendMsg msg.chatId ls.response msg.threadId,
                                             Event.adapterSendMsg msg.chatId ls.response msg.threadId] },
            Except.ok ())
        | Except.error e2 =>
          ({ ls with sIdx := ls.sIdx + 2,
                     events := ls.events ++ [Event.adapterSendMsg msg.chatId ls.response msg.threadId,
                                             Event.adapterSendMsg msg.chatId ls.response msg.threadId] },
            Except.error e2)
  else (ls, Except.ok ())

/-- The outer catch of `handleMessage`: report the error text to the adapter
(`Error: …`) — if that report itself rejects, the error propagates and the
queue entry is rejected; otherwise the error is swallowed and the entry
resolves.  `sIdx` selects the outcome of this `sendMessage` call. -/
def reportError (env : Env) (msg : InboundMessage) (e : String) (sIdx : Nat) :
    List Event × Except String Unit :=
  ([Event.adapterSendMsg msg.chatId (("Error: ") ++ e) msg.threadId],
    match env.adapter.send sIdx with
    | Except.ok _ => Except.ok ()
    | Except.error e2 => Except.error e2)

/-- Step 1 of `handleMessage`: record the message's channel / chat / message
id with a fresh `updatedAt` as the persisted `lastMessageTarget`. -/
def stampTarget (env : Env) (st : AgentState) (msg : InboundMessage) : AgentState :=
  { st with lastMessageTarget := some (LastMessageTarget.mk msg.channel msg.chatId msg.messageId env.now) }

/-- Fresh loop state at the start of the streaming section. -/
def initLoopSt (st : AgentState) : LoopSt :=
  { response := (""), messageId := none, sentAnyMessage := false,
    aIdx := 0, sIdx := 0, eIdx := 0, state := st, events := [] }

/-- The unconditional `clearInterval` of the streaming section's `finally`. -/
def stopTyping (ls : LoopSt) : LoopSt :=
  { ls with events := ls.events ++ [Event.typingIntervalStop] }

/-- `AgentInstance.handleMessage(msg, adapter)`: the full processing of one
queue entry.  Returns the new agent state, the ordered collaborator trace,
and `Except.ok ()` when the entry's promise resolves /
`Except.error e` when it rejects with `e`. -/
def handleMessage (env : Env) (name : String) (st : AgentState) (msg : InboundMessage) :
    AgentState × List Event × Except String Unit :=
  let st1 := stampTarget env st msg
  let tr1 := [Event.saveState st1, Event.typing]
  match env.adapter.typing with
  | some e => (st1, tr1, Except.error e)
  | none =>
    let sel := selectSessionForMessage env st1
    match sel.2 with
    | Except.error e => (st1, tr1 ++ sel.1, Except.error e)
    | Except.ok (sess, usedSpecific, usedDefault) =>
      let ir := initWithRecovery env st1 sess usedSpecific usedDefault
      match ir.2 with
      | Except.error e =>
        let rep := reportError env msg e 0
        (st1, tr1 ++ sel.1 ++ ir.1 ++ rep.1 ++ [Event.sessionCloseCall], rep.2)
      | Except.ok sess2 =>
        let fmtText := env.formatEnvelope msg
        let sb := sessionBehaviorOf env sess2
        match sb.send with
        | some e =>
          let rep := reportError env msg e 0
          (st1, tr1 ++ sel.1 ++ ir.1 ++ [Event.sendCall fmtText initTimeoutMs]
            ++ rep.1 ++ [Event.sessionCloseCall], rep.2)
        | none =>
          let ls1 := streamLoop env name msg sb sb.stream (initLoopSt st1)
          let fs := finalSend env msg (stopTyping ls1)
          let pre := tr1 ++ sel.1 ++ ir.1 ++
            [Event.sendCall fmtText initTimeoutMs, Event.typingIntervalStart]
          match fs.2 with
          | Except.ok _ =>
            (fs.1.state, pre ++ fs.1.events ++ [Event.sessionCloseCall], Except.ok ())
          | Except.error e =>
            let rep := reportError env msg e fs.1.sIdx
            (fs.1.state, pre ++ fs.1.events ++ rep.1 ++ [Event.sessionCloseCall], rep.2)

/-- `AgentInstance.processQueue()`'s drain loop: take the head entry, await
its full handling, settle its promise (resolve on `ok`, reject on `error`),
and continue with the next entry regardless of the outcome.  Returns the
final state, the concatenated trace, and the per-entry settlements in
order. -/
def processQueue (name : String) :
    List (Env × InboundMessage) → AgentState →
      AgentState × List Event × List (Except String Unit)
  | [], st => (st, [], [])
  | (env, msg) :: rest, st =>
    let r := handleMessage env name st msg
    let q := processQueue name rest r.1
    (q.1, r.2.1 ++ q.2.1, r.2.2 :: q.2.2)

/-- The `for await` loop of `sendToAgent`: accumulate assistant text (no
adapter interaction at all); on the terminal result event run
`handleSessionResult` and break.  Returns the accumulated reply, the new
state and the trace. -/
def sendStreamLoop (env : Env) (name : String) (sb : SessionBehavior) :
    List StreamMsg → String → AgentState → String × AgentState × List Event
  | [], response, st => (response, st, [])
  | StreamMsg.assistant content :: rest, response, st =>
    sendStreamLoop env name sb rest (response ++ content) st
  | StreamMsg.result :: _, response, st =>
    let p := handleSessionResult env name sb st
    (response, p.1, p.2)
  | StreamMsg.other :: rest, response, st => sendStreamLoop env name sb rest response st

/-- The inner try of `sendToAgent`: `session.send(text)` (no timeout
wrapper), with the single recreate-and-retry recovery of its catch block.
Returns the step's trace and the session whose `send` succeeded, or the
error that propagates. -/
def sendWithRecovery (env : Env) (st : AgentState) (text : String) (sess : SessHandle)
    (usedSpecific usedDefault : Bool) : List Event × Except String SessHandle :=
  match (sessionBehaviorOf env sess).send with
  | none => ([Event.sendRawCall text], Except.ok sess)
  | some e =>
    match sendRecoveryTarget usedSpecific usedDefault st.agentId with
    | some aid =>
      match (env.createBehavior aid).send with
      | none =>
        ([Event.sendRawCall text, Event.sessionCloseCall,
          Event.createSessionCall aid, Event.sendRawCall text],
          Except.ok (SessHandle.created aid))
      | some e2 =>
        ([Event.sendRawCall text, Event.sessionCloseCall,
          Event.createSessionCall aid, Event.sendRawCall text],
          Except.error e2)
    | none => ([Event.sendRawCall text], Except.error e)

/-- `AgentInstance.sendToAgent(text)`: out-of-band text injection.  Same
session-selection precedence and recovery condition as `handleMessage`, no
adapter interaction, returns the accumulated reply text. -/
def sendToAgent (env : Env) (name : String) (st : AgentState) (text : String) :
    AgentState × List Event × Except String String :=
  let sel := selectSessionForSend env st
  match sel.2 with
  | Except.error e => (st, sel.1, Except.error e)
  | Except.ok (sess, usedSpecific, usedDefault) =>
    let sr := sendWithRecovery env st text sess usedSpecific usedDefault
    match sr.2 with
    | Except.error e => (st, sel.1 ++ sr.1 ++ [Event.sessionCloseCall], Except.error e)
    | Except.ok sess2 =>
      let sb := sessionBehaviorOf env sess2
      let p := sendStreamLoop env name sb sb.stream ("") st
      (p.2.1, sel.1 ++ sr.1 ++ p.2.2 ++ [Event.sessionCloseCall], Except.ok p.1)

/-- The concatenation of all assistant text chunks of a stream. -/
def assistantConcat : List StreamMsg → String
  | [] => ("")
  | StreamMsg.assistant content :: rest => content ++ assistantConcat rest
  | _ :: rest => assistantConcat rest

/-- Events that touch the channel adapter (message sends/edits, typing
indicator and its refresh interval). -/
def isAdapterEvent : Event → Bool
  | Event.typing => true
  | Event.adapterSendMsg _ _ _ => true
  | Event.adapterEditMsg _ _ _ => true
  | Event.typingIntervalStart => true
  | Event.typingIntervalStop => true
  | _ => false

/-- Events that establish or resume a remote session (or create the remote
agent). -/
def isRemoteSessionEvent : Event → Bool
  | Event.createAgentCall => true
  | Event.resumeSessionCall _ => true
  | Event.createSessionCall _ => true
  | _ => false

/-- `session.send` attempts under the `withTimeout` wrapper. -/
def isSendCallEvt : Event → Bool
  | Event.sendCall _ _ => true
  | _ => false

/-- `createSession` recovery attempts. -/
def isCreateSessionEvt : Event → Bool
  | Event.createSessionCall _ => true
  | _ => false

/-- `initialize` attempts under the `withTimeout` wrapper. -/
def isInitCallEvt : Event → Bool
  | Event.initCall _ => true
  | _ => false

/-- A result event of a stream. -/
def isResultMsg : StreamMsg → Bool
  | StreamMsg.result => true
  | _ => false

/-- The suffix of a trace strictly after its first `sendCall` event (the
whole trace has no `sendCall` ⟹ the suffix is empty). -/
def afterFirstSend : List Event → List Event
  | [] => []
  | e :: rest => if isSendCallEvt e then rest else afterFirstSend rest

/-! ## The per-instance work queue as a small-step scheduler

`processMessage` pushes a queue entry and starts the drain loop unless one is
already running (`processing` flag); the drain loop takes entries strictly in
arrival order and awaits each entry's full handling before looking at the
queue again.  The cooperative single-threaded runtime is modelled as a
small-step scheduler: entries may *arrive* at any point; an idle instance may
*start* the head entry, which fixes (deterministically, from the entry's
environment) the entry's collaborator trace and resulting state; the
in-flight entry's trace is then *emitted* one event at a time, and only after
it is exhausted may the instance *finish* and start another entry.  Each
arrival is stamped with a submission index (`nextId`). -/

/-- One queue entry as submitted to `processMessage`. -/
structure SchedEntry where
  env : Env
  msg : InboundMessage

/-- The scheduler state of one `AgentInstance`: persisted agent state, the
pending FIFO queue (stamped with submission indices), the in-flight entry
(submission index, remaining collaborator events, state after completion),
and the next submission index. -/
structure Sched where
  name : String
  agent : AgentState
  queue : List (Nat × SchedEntry)
  current : Option (Nat × List Event × AgentState)
  nextId : Nat

/-- One scheduler step; the label is the emitted collaborator event, stamped
with the submission index of the message performing it. -/
inductive SchedStep : Sched → Option (Nat × Event) → Sched → Prop where
  | arrive (s : Sched) (entry : SchedEntry) :
      SchedStep s none
        { s with queue := s.queue ++ [(s.nextId, entry)], nextId := s.nextId + 1 }
  | start (s : Sched) (id : Nat) (entry : SchedEntry) (rest : List (Nat × SchedEntry))
      (hq : s.queue = (id, entry) :: rest) (hc : s.current = none) :
      SchedStep s none
        { s with queue := rest,
                 current := some (id, (handleMessage entry.env s.name s.agent entry.msg).2.1,
                                  (handleMessage entry.env s.name s.agent entry.msg).1) }
  | emit (s : Sched) (id : Nat) (e : Event) (rest : List Event) (stDone : AgentState)
      (hc : s.current = some (id, e :: rest, stDone)) :
      SchedStep s (some (id, e)) { s with current := some (id, rest, stDone) }
  | finish (s : Sched) (id : Nat) (stDone : AgentState)
      (hc : s.current = some (id, [], stDone)) :
      SchedStep s none { s with current := none, agent := stDone }

/-- A run of the scheduler: the reflexive-transitive closure of `SchedStep`,
collecting the labelled events in order. -/
inductive SchedRun : Sched → List (Nat × Event) → Sched → Prop where
  | done (s : Sched) : SchedRun s [] s
  | step (s1 : Sched) (lbl : Option (Nat × Event)) (s2 : Sched)
      (tr : List (Nat × Event)) (s3 : Sched) :
      SchedStep s1 lbl s2 → SchedRun s2 tr s3 → SchedRun s1 (lbl.toList ++ tr) s3

/-- The idle initial scheduler state of a freshly constructed instance. -/
def initialSched (name : String) (st : AgentState) : Sched :=
  { name := name, agent := st, queue := [], current := none, nextId := 0 }

/-! ## Concrete environments used as witnesses and counterexamples -/

/-- A session whose every operation succeeds and whose stream is empty. -/
def okSB : SessionBehavior :=
  { init := none, send := none, stream := [], agentId := none, conversationId := none }

/-- An adapter that always succeeds. -/
def passiveAdapter : AdapterEnv :=
  { typing := none, canEdit := true, send := fun _ => Except.ok ("m1"),
    edit := fun _ => none }

/-- Environment of the C1 scenario: no stored identity, `createAgent`
succeeds, but initialization of the fresh session fails — an unrecoverable
failure (nothing to recreate against). -/
def c1Env : Env :=
  { createAgent := Except.ok ("a1"),
    resumeBehavior := fun _ =>
      { init := some ("boom"), send := none, stream := [], agentId := none,
        conversationId := none },
    createBehavior := fun _ => okSB,
    adapter := passiveAdapter,
    tick := fun _ => false,
    now := ("t0"),
    baseUrl := none,
    formatEnvelope := fun m => m.text }

/-- Environment of the C2 scenario: the stored conversation resumes and
initializes fine, but `send` fails; a stored agent identity exists and
`createSession` against it would succeed, so the claimed recreate-and-retry
would have been possible. -/
def c2Env : Env :=
  { createAgent := Except.error ("nocreate"),
    resumeBehavior := fun t =>
      if t = ("c0") then
        { init := none, send := some ("sendboom"), stream := [], agentId := none,
          conversationId := none }
      else okSB,
    createBehavior := fun _ => okSB,
    adapter := passiveAdapter,
    tick := fun _ => false,
    now := ("t0"),
    baseUrl := none,
    formatEnvelope := fun m => m.text }

/-- Stored state with both a conversation id and an agent identity. -/
def c2State : AgentState :=
  { agentId := some ("a0"), conversationId := some ("c0") }

/-- A plain inbound message. -/
def cMsg : InboundMessage :=
  { channel := ("telegram"), chatId := ("c1"), userId := ("u1"), text := ("hi") }

/-- Environment with a successful two-chunk stream ending in a result event. -/
def c8Env : Env :=
  { createAgent := Except.ok ("a1"),
    resumeBehavior := fun _ =>
      { init := none, send := none,
        stream := [StreamMsg.assistant ("Hel"), StreamMsg.other,
          StreamMsg.assistant ("lo"), StreamMsg.result],
        agentId := some ("aNew"), conversationId := some ("cNew") },
    createBehavior := fun _ => okSB,
    adapter := passiveAdapter,
    tick := fun _ => false,
    now := ("t0"),
    baseUrl := none,
    formatEnvelope := fun m => m.text }

/-! ## Theorems -/

theorem specLE_trans (a b c : AgentBinding) :
    specLE a b → specLE b c → specLE a c := by
  simp only [specLE, decide_eq_true_eq]
  omega

theorem specLE_total (a b : AgentBinding) : specLE a b || specLE b a := by
  simp only [specLE, Bool.or_eq_true, decide_eq_true_eq]
  omega

theorem getSpecificityScore_peer (b : AgentBinding) :
    b.matchSpec.peer.isSome = true ↔ 100 ≤ getSpecificityScore b := by
  unfold getSpecificityScore
  cases h : b.matchSpec.peer.isSome <;> simp [h] <;> split <;> omega

theorem getMatchLevel_peer_isSome {b : AgentBinding} {ctx : RoutingContext}
    {lvl : MatchLevel} (h : getMatchLevel b ctx = some lvl)
    (hp : b.matchSpec.peer.isSome = true) : lvl = MatchLevel.peer := by
  obtain ⟨p, hp'⟩ := Option.isSome_iff_exists.mp hp
  unfold getMatchLevel at h
  rw [hp'] at h
  repeat' split at h
  all_goals simp_all

theorem getMatchLevel_peer_of_level {b : AgentBinding} {ctx : RoutingContext}
    (h : getMatchLevel b ctx = some MatchLevel.peer) : b.matchSpec.peer.isSome = true := by
  cases hp : b.matchSpec.peer with
  | some p => rfl
  | none =>
    exfalso
    unfold getMatchLevel at h
    rw [hp] at h
    repeat' split at h
    all_goals simp_all

theorem routeList_find? (ctx : RoutingContext) (d : String) (l : List AgentBinding) :
    (routeList ctx d l).matchedBinding =
      l.find? (fun b => (getMatchLevel b ctx).isSome) := by
  induction l with
  | nil => rfl
  | cons b rest ih =>
    unfold routeList
    cases h : getMatchLevel b ctx with
    | none => simpa [List.find?, h] using ih
    | some lvl => simp [List.find?, h]

theorem routeList_peer (ctx : RoutingContext) (d : String) :
    ∀ l : List AgentBinding,
      List.Pairwise (fun a b => specLE a b = true) l →
      (∃ b ∈ l, getMatchLevel b ctx = some MatchLevel.peer) →
      (routeList ctx d l).matchLevel = MatchLevel.peer ∧
        ∀ cb, (routeList ctx d l).matchedBinding = some cb →
          cb.matchSpec.peer.isSome = true := by
  intro l
  induction l with
  | nil => rintro _ ⟨b, hb, _⟩; exact absurd hb (by simp)
  | cons b0 rest ih =>
    rintro hsorted ⟨b, hb, hbl⟩
    obtain ⟨hhead, htail⟩ := List.pairwise_cons.mp hsorted
    rcases List.mem_cons.mp hb with heq | hbrest
    · subst heq
      cases h0 : getMatchLevel b ctx with
      | none => rw [hbl] at h0; cases h0
      | some lvl =>
        have hp := getMatchLevel_peer_of_level hbl
        have := getMatchLevel_peer_isSome h0 hp
        subst this
        constructor
        · unfold routeList; rw [h0]
        · intro cb hcb
          unfold routeList at hcb
          rw [h0] at hcb
          simp only [Option.some_inj] at hcb
          exact hcb ▸ hp
    · have hscore : 100 ≤ getSpecificityScore b0 := by
        have hb100 := (getSpecificityScore_peer b).mp (getMatchLevel_peer_of_level hbl)
        have := hhead b hbrest
        simp only [specLE, decide_eq_true_eq] at this
        omega
      have hp0 : b0.matchSpec.peer.isSome = true := (getSpecificityScore_peer b0).mpr hscore
      cases h0 : getMatchLevel b0 ctx with
      | none =>
        have := ih htail ⟨b, hbrest, hbl⟩
        unfold routeList
        rw [h0]
        exact this
      | some lvl =>
        have := getMatchLevel_peer_isSome h0 hp0
        subst this
        constructor
        · unfold routeList; rw [h0]
        · intro cb hcb
          unfold routeList at hcb
          rw [h0] at hcb
          simp only [Option.some_inj] at hcb
          exact hcb ▸ hp0

/-- Claim C4. `route` evaluates bindings in descending specificity-score order
(the pre-sorted list is ordered by `getSpecificityScore`, equal scores keep
declaration order since the sort is stable), returns the first matching
binding without falling through, and consequently a context matching a
peer-level binding is always routed by a binding carrying a peer pattern —
never by a channel-only binding — regardless of declaration order. -/
theorem route_specificity_and_peer_priority
    (l : List AgentBinding) (d : String) (ctx : RoutingContext) :
    List.Pairwise
        (fun a b => getSpecificityScore b ≤ getSpecificityScore a)
        (sortBySpecificity l) ∧
      (∀ a b : AgentBinding, getSpecificityScore a = getSpecificityScore b →
        List.Sublist [a, b] l → List.Sublist [a, b] (sortBySpecificity l)) ∧
      (route (createRouter l d) ctx).matchedBinding =
        (sortBySpecificity l).find? (fun b => (getMatchLevel b ctx).isSome) ∧
      ((∃ b ∈ l, getMatchLevel b ctx = some MatchLevel.peer) →
        (route (createRouter l d) ctx).matchLevel = MatchLevel.peer ∧
          ∀ cb, (route (createRouter l d) ctx).matchedBinding = some cb →
            cb.matchSpec.peer.isSome = true) := by
  have hsorted := List.sorted_mergeSort specLE_trans specLE_total l
  refine ⟨?_, ?_, ?_, ?_⟩
  · exact hsorted.imp (by simp only [specLE, decide_eq_true_eq]; exact fun h => h)
  · intro a b hab hsub
    exact List.pair_sublist_mergeSort specLE_trans specLE_total
      (by simp only [specLE, decide_eq_true_eq]; omega) hsub
  · exact routeList_find? ctx d (sortBySpecificity l)
  · rintro ⟨b, hb, hbl⟩
    exact routeList_peer ctx d (sortBySpecificity l) hsorted
      ⟨b, (List.mem_mergeSort).mpr hb, hbl⟩

theorem route_specificity_and_peer_priority_witness :
    (route
        (createRouter
          [{ agentId := ("chanAgent"), matchSpec := { channel := ("telegram") } },
           { agentId := ("peerAgent"),
             matchSpec := { channel := ("telegram"),
                            peer := some { kind := PeerKind.dm, id := ("42") } } }]
          ("fallback"))
        { channel := ("telegram"), peerId := some ("42"),
          peerKind := some PeerKind.dm }).matchLevel = MatchLevel.peer :=
  (route_specificity_and_peer_priority _ _ _).2.2.2 (by decide) |>.1

theorem routeList_no_match (ctx : RoutingContext) (d : String) :
    ∀ l : List AgentBinding, (∀ b ∈ l, getMatchLevel b ctx = none) →
      routeList ctx d l =
        { agentId := d, matchedBinding := none, matchLevel := MatchLevel.default } := by
  intro l
  induction l with
  | nil => intro _; rfl
  | cons b rest ih =>
    intro h
    unfold routeList
    rw [h b (List.mem_cons_self b rest)]
    exact ih fun x hx => h x (List.mem_cons_of_mem b hx)

/-- Claim C5. `route` is total — every context yields exactly one
`RoutingResult` (it is a Lean function into `RoutingResult`) — and when no
binding matches the context the result carries the configured default agent
id, `matchedBinding = none` and `matchLevel = default`. -/
theorem route_total_default (l : List AgentBinding) (d : String) (ctx : RoutingContext)
    (h : ∀ b ∈ l, getMatchLevel b ctx = none) :
    route (createRouter l d) ctx =
      { agentId := d, matchedBinding := none, matchLevel := MatchLevel.default } :=
  routeList_no_match ctx d (sortBySpecificity l)
    fun b hb => h b ((List.mem_mergeSort).mp hb)

theorem route_total_default_witness :
    route (createRouter [{ agentId := ("a1"), matchSpec := { channel := ("slack") } }]
        ("fallback"))
        { channel := ("telegram") } =
      { agentId := ("fallback"), matchedBinding := none, matchLevel := MatchLevel.default } :=
  route_total_default _ _ _ (by decide)

/-- Claim C6. For every channel, mode and override set: `per-chat` /
`per-channel` mode yields the lowercased channel id; `shared` (or undefined)
mode yields the lowercased channel id when the lowercased channel is in the
override set and `"shared"` otherwise. -/
theorem resolveConversationKey_spec (channel : String) (mode : Option String)
    (overrides : List String) :
    ((mode = some ("per-chat") ∨ mode = some ("per-channel")) →
      resolveConversationKey channel mode overrides = lowerString channel) ∧
    ((mode = some ("shared") ∨ mode = none) →
      resolveConversationKey channel mode overrides =
        if lowerString channel ∈ overrides then lowerString channel else ("shared")) := by
  constructor
  · intro h
    simp [resolveConversationKey, h]
  · rintro (rfl | rfl) <;> simp [resolveConversationKey]

theorem resolveConversationKey_spec_witness :
    resolveConversationKey ("SLACK") (some ("shared")) [("slack")] =
      (if lowerString ("SLACK") ∈ [("slack")] then lowerString ("SLACK") else ("shared")) :=
  (resolveConversationKey_spec ("SLACK") (some ("shared")) [("slack")]).2 (Or.inl rfl)

/-- Claim C7. `resolveHeartbeatConversationKey`: in `per-channel` mode,
`"dedicated"` yields `"heartbeat"`, `"last-active"` yields the last-active
channel (else `"shared"` when absent), and any other literal setting is
returned verbatim; in `shared` mode the result is `"shared"` unless the
setting is `"last-active"` and a last-active channel is present whose
lowercased form is in the override set, in which case that channel is
returned; override membership is checked on the lowercased channel. -/
theorem resolveHeartbeatConversationKey_spec (setting : String)
    (overrides : List String) (lastActive : Option String) (ch : String) :
    (resolveHeartbeatConversationKey ("per-channel") (some ("dedicated")) overrides
        lastActive = ("heartbeat")) ∧
    (resolveHeartbeatConversationKey ("per-channel") (some ("last-active")) overrides
        (some ch) = ch) ∧
    (resolveHeartbeatConversationKey ("per-channel") (some ("last-active")) overrides
        none = ("shared")) ∧
    (setting ≠ ("dedicated") → setting ≠ ("last-active") →
      resolveHeartbeatConversationKey ("per-channel") (some setting) overrides
        lastActive = setting) ∧
    (setting ≠ ("last-active") →
      resolveHeartbeatConversationKey ("shared") (some setting) overrides
        lastActive = ("shared")) ∧
    (resolveHeartbeatConversationKey ("shared") (some ("last-active")) overrides
        none = ("shared")) ∧
    (lowerString ch ∈ overrides →
      resolveHeartbeatConversationKey ("shared") (some ("last-active")) overrides
        (some ch) = ch) ∧
    (lowerString ch ∉ overrides →
      resolveHeartbeatConversationKey ("shared") (some ("last-active")) overrides
        (some ch) = ("shared")) := by
  refine ⟨rfl, rfl, rfl, ?_, ?_, rfl, ?_, ?_⟩
  · intro h1 h2
    simp [resolveHeartbeatConversationKey, h1, h2]
  · intro h1
    simp [resolveHeartbeatConversationKey, h1]
  · intro h
    simp [resolveHeartbeatConversationKey, h]
  · intro h
    simp [resolveHeartbeatConversationKey, h]

theorem resolveHeartbeatConversationKey_spec_witness :
    resolveHeartbeatConversationKey ("per-channel") (some ("discord")) [] (some ("telegram"))
      = ("discord") :=
  (resolveHeartbeatConversationKey_spec ("discord") [] (some ("telegram")) ("x")).2.2.2.1
    (by decide) (by decide)

/-- Events the streaming / delivery / result-persistence stages may emit:
adapter message traffic, state writes and the best-effort display-name call.
These stages never touch a remote session (`initialize` / `send` /
`createSession` / `resumeSession` / `createAgent` never appear). -/
def isLoopEvent : Event → Bool
  | Event.saveState _ => true
  | Event.adapterSendMsg _ _ _ => true
  | Event.adapterEditMsg _ _ _ => true
  | Event.updateAgentNameCall _ _ => true
  | _ => false

theorem handleSessionResult_events (env : Env) (name : String) (sb : SessionBehavior)
    (st : AgentState) : ∀ e ∈ (handleSessionResult env name sb st).2, isLoopEvent e = true := by
  intro e he
  unfold handleSessionResult at he
  dsimp only at he
  rcases List.mem_append.mp he with h | h
  · rw [List.mem_singleton] at h
    subst h
    rfl
  · repeat' split at h
    all_goals first
      | (rw [List.mem_singleton] at h; subst h; rfl)
      | cases h

theorem handleSessionResult_lastMessageTarget (env : Env) (name : String)
    (sb : SessionBehavior) (st : AgentState) :
    (handleSessionResult env name sb st).1.lastMessageTarget = st.lastMessageTarget := by
  unfold handleSessionResult
  dsimp only
  repeat' split
  all_goals rfl

theorem streamUpdate_state (env : Env) (msg : InboundMessage) (ls : LoopSt) :
    (streamUpdate env msg ls).state = ls.state := by
  unfold streamUpdate
  repeat' split
  all_goals rfl

theorem streamUpdate_events (env : Env) (msg : InboundMessage) (ls : LoopSt) :
    ∃ d, (streamUpdate env msg ls).events = ls.events ++ d ∧
      ∀ e ∈ d, isLoopEvent e = true := by
  unfold streamUpdate
  repeat' split
  all_goals first
    | (refine ⟨_, rfl, ?_⟩
       simp [isLoopEvent])
    | (refine ⟨[], ?_, ?_⟩ <;> simp)

theorem streamLoop_spec (env : Env) (name : String) (msg : InboundMessage)
    (sb : SessionBehavior) :
    ∀ (msgs : List StreamMsg) (ls : LoopSt),
      (streamLoop env name msg sb msgs ls).state.lastMessageTarget =
          ls.state.lastMessageTarget ∧
        ∃ d, (streamLoop env name msg sb msgs ls).events = ls.events ++ d ∧
          ∀ e ∈ d, isLoopEvent e = true := by
  intro msgs
  induction msgs with
  | nil => exact fun ls => ⟨rfl, [], (List.append_nil ls.events).symm, by simp⟩
  | cons m rest ih =>
    intro ls
    cases m with
    | assistant content =>
      obtain ⟨d1, hd1, ha1⟩ :=
        streamUpdate_events env msg { ls with response := ls.response ++ content }
      have hs1 := streamUpdate_state env msg { ls with response := ls.response ++ content }
      obtain ⟨hs2, d2, hd2, ha2⟩ :=
        ih (bumpA (streamUpdate env msg { ls with response := ls.response ++ content }))
      refine ⟨?_, d1 ++ d2, ?_, ?_⟩
      · show (streamLoop env name msg sb rest _).state.lastMessageTarget = _
        rw [hs2]
        show (streamUpdate env msg _).state.lastMessageTarget = _
        rw [hs1]
      · show (streamLoop env name msg sb rest _).events = _
        rw [hd2]
        show (streamUpdate env msg _).events ++ d2 = _
        rw [hd1]
        simp [List.append_assoc]
      · intro e he
        rcases List.mem_append.mp he with h | h
        · exact ha1 e h
        · exact ha2 e h
    | result =>
      refine ⟨?_, (handleSessionResult env name sb ls.state).2, rfl, ?_⟩
      · exact handleSessionResult_lastMessageTarget env name sb ls.state
      · exact handleSessionResult_events env name sb ls.state
    | other =>
      obtain ⟨hs, d, hd, hall⟩ := ih ls
      exact ⟨hs, d, hd, hall⟩

theorem finalSend_state (env : Env) (msg : InboundMessage) (ls : LoopSt) :
    (finalSend env msg ls).1.state = ls.state := by
  unfold finalSend
  repeat' split
  all_goals rfl

theorem finalSend_events (env : Env) (msg : InboundMessage) (ls : LoopSt) :
    ∃ d, (finalSend env msg ls).1.events = ls.events ++ d ∧
      ∀ e ∈ d, isLoopEvent e = true := by
  unfold finalSend
  repeat' split
  all_goals first
    | (refine ⟨_, rfl, ?_⟩
       simp [isLoopEvent])
    | (refine ⟨[], ?_, ?_⟩ <;> simp)

/-- The streaming-and-delivery section of `handleMessage` for the session
`sess2` that completed initialization: stream loop, unconditional
`clearInterval`, final delivery. -/
def hmStream (env : Env) (name : String) (st : AgentState) (msg : InboundMessage)
    (sess2 : SessHandle) : LoopSt × Except String Unit :=
  finalSend env msg (stopTyping (streamLoop env name msg (sessionBehaviorOf env sess2)
    (sessionBehaviorOf env sess2).stream (initLoopSt (stampTarget env st msg))))

theorem handleMessage_cases (env : Env) (name : String) (st : AgentState)
    (msg : InboundMessage) :
    (∃ e, env.adapter.typing = some e ∧
      handleMessage env name st msg =
        (stampTarget env st msg,
          [Event.saveState (stampTarget env st msg), Event.typing], Except.error e)) ∨
    (env.adapter.typing = none ∧ ∃ e,
      (selectSessionForMessage env (stampTarget env st msg)).2 = Except.error e ∧
      handleMessage env name st msg =
        (stampTarget env st msg,
          [Event.saveState (stampTarget env st msg), Event.typing] ++
            (selectSessionForMessage env (stampTarget env st msg)).1, Except.error e)) ∨
    (env.adapter.typing = none ∧ ∃ sess u v e,
      (selectSessionForMessage env (stampTarget env st msg)).2 = Except.ok (sess, u, v) ∧
      (initWithRecovery env (stampTarget env st msg) sess u v).2 = Except.error e ∧
      handleMessage env name st msg =
        (stampTarget env st msg,
          [Event.saveState (stampTarget env st msg), Event.typing] ++
            (selectSessionForMessage env (stampTarget env st msg)).1 ++
            (initWithRecovery env (stampTarget env st msg) sess u v).1 ++
            (reportError env msg e 0).1 ++ [Event.sessionCloseCall],
          (reportError env msg e 0).2)) ∨
    (env.adapter.typing = none ∧ ∃ sess u v sess2 e,
      (selectSessionForMessage env (stampTarget env st msg)).2 = Except.ok (sess, u, v) ∧
      (initWithRecovery env (stampTarget env st msg) sess u v).2 = Except.ok sess2 ∧
      (sessionBehaviorOf env sess2).send = some e ∧
      handleMessage env name st msg =
        (stampTarget env st msg,
          [Event.saveState (stampTarget env st msg), Event.typing] ++
            (selectSessionForMessage env (stampTarget env st msg)).1 ++
            (initWithRecovery env (stampTarget env st msg) sess u v).1 ++
            [Event.sendCall (env.formatEnvelope msg) initTimeoutMs] ++
            (reportError env msg e 0).1 ++ [Event.sessionCloseCall],
          (reportError env msg e 0).2)) ∨
    (env.adapter.typing = none ∧ ∃ sess u v sess2,
      (selectSessionForMessage env (stampTarget env st msg)).2 = Except.ok (sess, u, v) ∧
      (initWithRecovery env (stampTarget env st msg) sess u v).2 = Except.ok sess2 ∧
      (sessionBehaviorOf env sess2).send = none ∧
      (((hmStream env name st msg sess2).2 = Except.ok () ∧
        handleMessage env name st msg =
          ((hmStream env name st msg sess2).1.state,
            [Event.saveState (stampTarget env st msg), Event.typing] ++
              (selectSessionForMessage env (stampTarget env st msg)).1 ++
              (initWithRecovery env (stampTarget env st msg) sess u v).1 ++
              [Event.sendCall (env.formatEnvelope msg) initTimeoutMs,
                Event.typingIntervalStart] ++
              (hmStream env name st msg sess2).1.events ++ [Event.sessionCloseCall],
            Except.ok ())) ∨
      (∃ e2, (hmStream env name st msg sess2).2 = Except.error e2 ∧
        handleMessage env name st msg =
          ((hmStream env name st msg sess2).1.state,
            [Event.saveState (stampTarget env st msg), Event.typing] ++
              (selectSessionForMessage env (stampTarget env st msg)).1 ++
              (initWithRecovery env (stampTarget env st msg) sess u v).1 ++
              [Event.sendCall (env.formatEnvelope msg) initTimeoutMs,
                Event.typingIntervalStart] ++
              (hmStream env name st msg sess2).1.events ++
              (reportError env msg e2 (hmStream env name st msg sess2).1.sIdx).1 ++
              [Event.sessionCloseCall],
            (reportError env msg e2 (hmStream env name st msg sess2).1.sIdx).2)))) := by
  unfold handleMessage
  dsimp only
  cases ht : env.adapter.typing with
  | some e => exact Or.inl ⟨e, rfl, rfl⟩
  | none =>
    dsimp only
    cases hsel : (selectSessionForMessage env (stampTarget env st msg)).2 with
    | error e => exact Or.inr (Or.inl ⟨rfl, e, rfl, rfl⟩)
    | ok p =>
      obtain ⟨sess, u, v⟩ := p
      dsimp only
      cases hir : (initWithRecovery env (stampTarget env st msg) sess u v).2 with
      | error e => exact Or.inr (Or.inr (Or.inl ⟨rfl, sess, u, v, e, rfl, hir, rfl⟩))
      | ok sess2 =>
        dsimp only
        cases hsend : (sessionBehaviorOf env sess2).send with
        | some e =>
          exact Or.inr (Or.inr (Or.inr (Or.inl ⟨rfl, sess, u, v, sess2, e, rfl, hir, hsend, rfl⟩)))
        | none =>
          dsimp only
          cases hfs : (finalSend env msg (stopTyping (streamLoop env name msg
              (sessionBehaviorOf env sess2) (sessionBehaviorOf env sess2).stream
              (initLoopSt (stampTarget env st msg))))).2 with
          | ok uu =>
            exact Or.inr (Or.inr (Or.inr (Or.inr
              ⟨rfl, sess, u, v, sess2, rfl, hir, hsend, Or.inl ⟨hfs, rfl⟩⟩)))
          | error e2 =>
            exact Or.inr (Or.inr (Or.inr (Or.inr
              ⟨rfl, sess, u, v, sess2, rfl, hir, hsend, Or.inr ⟨e2, hfs, rfl⟩⟩)))

/-- Claim C10. For every inbound message handled via `processMessage`, the very
first collaborator action of its handling is the state-file write recording
`lastMessageTarget = {channel, chatId, messageId, fresh updatedAt}` — in
particular it precedes every remote-session call — and the returned state
still carries that target whatever the rest of the processing did (the
update survives failure of any later step). -/
theorem handleMessage_persists_target (env : Env) (name : String) (st : AgentState)
    (msg : InboundMessage) :
    (handleMessage env name st msg).2.1.head? =
        some (Event.saveState (stampTarget env st msg)) ∧
      (handleMessage env name st msg).1.lastMessageTarget =
        some (LastMessageTarget.mk msg.channel msg.chatId msg.messageId env.now) := by
  have hstream : ∀ sess2 : SessHandle,
      (hmStream env name st msg sess2).1.state.lastMessageTarget =
        some (LastMessageTarget.mk msg.channel msg.chatId msg.messageId env.now) := by
    intro sess2
    unfold hmStream
    rw [finalSend_state]
    exact (streamLoop_spec env name msg (sessionBehaviorOf env sess2)
      (sessionBehaviorOf env sess2).stream (initLoopSt (stampTarget env st msg))).1
  rcases handleMessage_cases env name st msg with
    ⟨e, ht, hr⟩ | ⟨ht, e, hsel, hr⟩ | ⟨ht, sess, u, v, e, hsel, hir, hr⟩ |
    ⟨ht, sess, u, v, sess2, e, hsel, hir, hsend, hr⟩ |
    ⟨ht, sess, u, v, sess2, hsel, hir, hsend, hrest⟩
  · rw [hr]; exact ⟨rfl, rfl⟩
  · rw [hr]; exact ⟨rfl, rfl⟩
  · rw [hr]; exact ⟨rfl, rfl⟩
  · rw [hr]; exact ⟨rfl, rfl⟩
  · rcases hrest with ⟨hfs, hr⟩ | ⟨e2, hfs, hr⟩ <;> rw [hr] <;> exact ⟨rfl, hstream sess2⟩

theorem isLoopEvent_ne_resume {e : Event} (h : isLoopEvent e = true) (t : String) :
    e ≠ Event.resumeSessionCall t := by
  cases e <;> simp_all [isLoopEvent]

theorem initWithRecovery_no_resume (env : Env) (s : AgentState) (sess : SessHandle)
    (u v : Bool) (t : String) :
    Event.resumeSessionCall t ∉ (initWithRecovery env s sess u v).1 := by
  unfold initWithRecovery
  repeat' split
  all_goals simp

theorem hmStream_events (env : Env) (name : String) (st : AgentState)
    (msg : InboundMessage) (sess2 : SessHandle) :
    ∀ e ∈ (hmStream env name st msg sess2).1.events,
      isLoopEvent e = true ∨ e = Event.typingIntervalStop := by
  intro e he
  unfold hmStream at he
  obtain ⟨d2, hd2, ha2⟩ := finalSend_events env msg (stopTyping
    (streamLoop env name msg (sessionBehaviorOf env sess2)
      (sessionBehaviorOf env sess2).stream (initLoopSt (stampTarget env st msg))))
  rw [hd2] at he
  obtain ⟨hs1, d1, hd1, ha1⟩ := streamLoop_spec env name msg (sessionBehaviorOf env sess2)
    (sessionBehaviorOf env sess2).stream (initLoopSt (stampTarget env st msg))
  have hstop : (stopTyping (streamLoop env name msg (sessionBehaviorOf env sess2)
      (sessionBehaviorOf env sess2).stream (initLoopSt (stampTarget env st msg)))).events =
      d1 ++ [Event.typingIntervalStop] := by
    show (streamLoop env name msg (sessionBehaviorOf env sess2)
      (sessionBehaviorOf env sess2).stream (initLoopSt (stampTarget env st msg))).events
        ++ [Event.typingIntervalStop] = d1 ++ [Event.typingIntervalStop]
    rw [hd1]
    rfl
  rw [hstop] at he
  rcases List.mem_append.mp he with h | h
  · rcases List.mem_append.mp h with h1 | h1
    · exact Or.inl (ha1 e h1)
    · exact Or.inr (List.mem_singleton.mp h1)
  · exact Or.inl (ha2 e h)

theorem selectSessionForMessage_fresh (env : Env) (s : AgentState)
    (h1 : s.conversationId = none) (h2 : s.agentId = none) :
    selectSessionForMessage env s =
      (Event.createAgentCall ::
        (match env.createAgent with
          | Except.ok newId => [Event.resumeSessionCall newId]
          | Except.error _ => ([] : List Event)),
        match env.createAgent with
        | Except.ok newId => Except.ok (SessHandle.resumed newId, false, false)
        | Except.error e => Except.error e) := by
  unfold selectSessionForMessage
  rw [h1, h2]
  cases env.createAgent <;> rfl

/-- Claim C9. `reset()` replaces the persisted state by `{agentId: null}` (the
state-file write carries exactly that cleared state), and the next message
the instance processes selects its session through the
create-new-remote-agent path: `createAgent` followed by resuming the freshly
created identity — every `resumeSession` in its whole trace targets the id
`createAgent` just returned, never a stored conversation or identity. -/
theorem reset_clears_and_recreates (st : AgentState) (env : Env) (name : String)
    (msg : InboundMessage) :
    (reset st).1 = { agentId := none } ∧
    (reset st).2 = [Event.saveState { agentId := none }] ∧
    selectSessionForMessage env (stampTarget env (reset st).1 msg) =
      (Event.createAgentCall ::
        (match env.createAgent with
          | Except.ok newId => [Event.resumeSessionCall newId]
          | Except.error _ => ([] : List Event)),
        match env.createAgent with
        | Except.ok newId => Except.ok (SessHandle.resumed newId, false, false)
        | Except.error e => Except.error e) ∧
    (∀ t, Event.resumeSessionCall t ∈ (handleMessage env name (reset st).1 msg).2.1 →
      env.createAgent = Except.ok t) := by
  have hsel0 := selectSessionForMessage_fresh env (stampTarget env (reset st).1 msg) rfl rfl
  refine ⟨rfl, rfl, hsel0, ?_⟩
  intro t ht
  have hselmem : Event.resumeSessionCall t ∈
      (selectSessionForMessage env (stampTarget env (reset st).1 msg)).1 →
      env.createAgent = Except.ok t := by
    rw [hsel0]
    intro hm
    cases hca : env.createAgent with
    | ok newId =>
      rw [hca] at hm
      simp only [List.mem_cons, List.mem_singleton] at hm
      rcases hm with h | h
      · cases h
      · rcases h with h | h
        · cases h; rfl
        · cases h
    | error e => rw [hca] at hm; simp at hm
  rcases handleMessage_cases env name (reset st).1 msg with
    ⟨e, hty, hr⟩ | ⟨hty, e, hse, hr⟩ | ⟨hty, sess, u, v, e, hse, hir, hr⟩ |
    ⟨hty, sess, u, v, sess2, e, hse, hir, hsend, hr⟩ |
    ⟨hty, sess, u, v, sess2, hse, hir, hsend, hrest⟩
  · rw [hr] at ht
    simp at ht
  · rw [hr] at ht
    simp only [List.cons_append, List.nil_append, List.mem_cons] at ht
    rcases ht with h | h
    · cases h
    · rcases h with h | h
      · cases h
      · exact hselmem h
  · rw [hr] at ht
    simp only [List.append_assoc, List.cons_append, List.nil_append, List.mem_cons,
      List.mem_append] at ht
    rcases ht with h | h
    · cases h
    · rcases h with h | h
      · cases h
      · rcases h with h | h
        · exact hselmem h
        · rcases h with h | h
          · exact absurd h (initWithRecovery_no_resume env _ sess u v t)
          · rcases h with h | h
            · simp [reportError] at h
            · simp at h
  · rw [hr] at ht
    simp only [List.append_assoc, List.cons_append, List.nil_append, List.mem_cons,
      List.mem_append] at ht
    rcases ht with h | h
    · cases h
    · rcases h with h | h
      · cases h
      · rcases h with h | h
        · exact hselmem h
        · rcases h with h | h
          · exact absurd h (initWithRecovery_no_resume env _ sess u v t)
          · rcases h with h | h
            · simp at h
            · rcases h with h | h
              · simp [reportError] at h
              · simp at h
  · rcases hrest with ⟨hfs, hr⟩ | ⟨e2, hfs, hr⟩ <;> rw [hr] at ht <;>
      simp only [List.append_assoc, List.cons_append, List.nil_append, List.mem_cons,
        List.mem_append] at ht
    · rcases ht with h | h
      · cases h
      · rcases h with h | h
        · cases h
        · rcases h with h | h
          · exact hselmem h
          · rcases h with h | h
            · exact absurd h (initWithRecovery_no_resume env _ sess u v t)
            · rcases h with h | h
              · cases h
              · rcases h with h | h
                · cases h
                · rcases h with h | h
                  · rcases hmStream_events env name (reset st).1 msg sess2 _ h with hl | hl
                    · exact absurd rfl (isLoopEvent_ne_resume hl t)
                    · cases hl
                  · simp at h
    · rcases ht with h | h
      · cases h
      · rcases h with h | h
        · cases h
        · rcases h with h | h
          · exact hselmem h
          · rcases h with h | h
            · exact absurd h (initWithRecovery_no_resume env _ sess u v t)
            · rcases h with h | h
              · cases h
              · rcases h with h | h
                · cases h
                · rcases h with h | h
                  · rcases hmStream_events env name (reset st).1 msg sess2 _ h with hl | hl
                    · exact absurd rfl (isLoopEvent_ne_resume hl t)
                    · cases hl
                  · rcases h with h | h
                    · simp [reportError] at h
                    · simp at h

theorem selectSessionForMessage_shape (env : Env) (s : AgentState) :
    (∃ w t, (selectSessionForMessage env s).1 =
        [Event.setEnvAgentId w, Event.resumeSessionCall t]) ∨
    (∃ t, (selectSessionForMessage env s).1 =
        [Event.createAgentCall, Event.resumeSessionCall t]) ∨
    (selectSessionForMessage env s).1 = [Event.createAgentCall] := by
  unfold selectSessionForMessage
  repeat' split
  all_goals first
    | exact Or.inl ⟨_, _, rfl⟩
    | exact Or.inr (Or.inl ⟨_, rfl⟩)
    | exact Or.inr (Or.inr rfl)

theorem initWithRecovery_shape (env : Env) (s : AgentState) (sess : SessHandle)
    (u v : Bool) :
    (initWithRecovery env s sess u v).1 = [Event.initCall initTimeoutMs] ∨
    ∃ aid, (initWithRecovery env s sess u v).1 =
      [Event.initCall initTimeoutMs, Event.sessionCloseCall,
        Event.createSessionCall aid, Event.initCall initTimeoutMs] := by
  unfold initWithRecovery
  repeat' split
  all_goals first
    | exact Or.inl rfl
    | exact Or.inr ⟨_, rfl⟩

theorem hmStream_no_stage (env : Env) (name : String) (st : AgentState)
    (msg : InboundMessage) (sess2 : SessHandle) :
    ∀ e ∈ (hmStream env name st msg sess2).1.events,
      isSendCallEvt e = false ∧ isCreateSessionEvt e = false ∧ isInitCallEvt e = false := by
  intro e he
  rcases hmStream_events env name st msg sess2 e he with h | h
  · cases e <;> simp_all [isLoopEvent, isSendCallEvt, isCreateSessionEvt, isInitCallEvt]
  · subst h
    exact ⟨rfl, rfl, rfl⟩

theorem afterFirstSend_append {A B : List Event}
    (h : ∀ e ∈ A, isSendCallEvt e = false) :
    afterFirstSend (A ++ B) = afterFirstSend B := by
  induction A with
  | nil => rfl
  | cons a A ih =>
    have ha := h a (List.mem_cons_self a A)
    rw [List.cons_append]
    show (if isSendCallEvt a then A ++ B else afterFirstSend (A ++ B)) = afterFirstSend B
    rw [ha]
    simp only [Bool.false_eq_true, if_false]
    exact ih fun e he => h e (List.mem_cons_of_mem a he)

theorem afterFirstSend_eq_nil {A : List Event}
    (h : ∀ e ∈ A, isSendCallEvt e = false) : afterFirstSend A = [] := by
  have := afterFirstSend_append (B := []) h
  rw [List.append_nil] at this
  exact this

theorem handleMessage_send_suffix (env : Env) (name : String) (st : AgentState)
    (msg : InboundMessage) :
    (∀ e ∈ (handleMessage env name st msg).2.1, isSendCallEvt e = false) ∨
    ∃ P Q, (handleMessage env name st msg).2.1 =
        P ++ Event.sendCall (env.formatEnvelope msg) initTimeoutMs :: Q ∧
      (∀ e ∈ P, isSendCallEvt e = false) ∧
      (∀ e ∈ Q, isSendCallEvt e = false ∧ isCreateSessionEvt e = false) := by
  have hS : ∀ e ∈ (selectSessionForMessage env (stampTarget env st msg)).1,
      isSendCallEvt e = false := by
    intro e he
    rcases selectSessionForMessage_shape env (stampTarget env st msg) with
      ⟨w, t, hS⟩ | ⟨t, hS⟩ | hS <;> rw [hS] at he <;>
      simp only [List.mem_cons, List.not_mem_nil, or_false] at he
    · rcases he with rfl | rfl <;> rfl
    · rcases he with rfl | rfl <;> rfl
    · rcases he with rfl; rfl
  have hI : ∀ sess u v, ∀ e ∈ (initWithRecovery env (stampTarget env st msg) sess u v).1,
      isSendCallEvt e = false := by
    intro sess u v e he
    rcases initWithRecovery_shape env (stampTarget env st msg) sess u v with
      hI | ⟨aid, hI⟩ <;> rw [hI] at he <;>
      simp only [List.mem_cons, List.not_mem_nil, or_false] at he
    · rcases he with rfl; rfl
    · rcases he with rfl | rfl | rfl | rfl <;> rfl
  rcases handleMessage_cases env name st msg with
    ⟨e, hty, hr⟩ | ⟨hty, e, hse, hr⟩ | ⟨hty, sess, u, v, e, hse, hir, hr⟩ |
    ⟨hty, sess, u, v, sess2, e, hse, hir, hsend, hr⟩ |
    ⟨hty, sess, u, v, sess2, hse, hir, hsend, hrest⟩
  · rw [hr]
    refine Or.inl ?_
    intro e' he'
    simp only [List.mem_cons, List.not_mem_nil, or_false] at he'
    rcases he' with rfl | rfl <;> rfl
  · rw [hr]
    refine Or.inl ?_
    intro e' he'
    rcases List.mem_append.mp he' with h | h
    · simp only [List.mem_cons, List.not_mem_nil, or_false] at h
      rcases h with rfl | rfl <;> rfl
    · exact hS e' h
  · rw [hr]
    refine Or.inl ?_
    intro e' he'
    rcases List.mem_append.mp he' with h | h
    · rcases List.mem_append.mp h with h1 | h1
      · rcases List.mem_append.mp h1 with h2 | h2
        · rcases List.mem_append.mp h2 with h3 | h3
          · simp only [List.mem_cons, List.not_mem_nil, or_false] at h3
            rcases h3 with rfl | rfl <;> rfl
          · exact hS e' h3
        · exact hI sess u v e' h2
      · simp only [reportError, List.mem_singleton] at h1
        rcases h1 with rfl; rfl
    · simp only [List.mem_singleton] at h
      rcases h with rfl; rfl
  · refine Or.inr ⟨[Event.saveState (stampTarget env st msg), Event.typing] ++
      (selectSessionForMessage env (stampTarget env st msg)).1 ++
      (initWithRecovery env (stampTarget env st msg) sess u v).1,
      (reportError env msg e 0).1 ++ [Event.sessionCloseCall], ?_, ?_, ?_⟩
    · rw [hr]
      simp [List.append_assoc]
    · intro e' he'
      rcases List.mem_append.mp he' with h | h
      · rcases List.mem_append.mp h with h1 | h1
        · simp only [List.mem_cons, List.not_mem_nil, or_false] at h1
          rcases h1 with rfl | rfl <;> rfl
        · exact hS e' h1
      · exact hI sess u v e' h
    · intro e' he'
      rcases List.mem_append.mp he' with h | h
      · simp only [reportError, List.mem_singleton] at h
        rcases h with rfl; exact ⟨rfl, rfl⟩
      · simp only [List.mem_singleton] at h
        rcases h with rfl; exact ⟨rfl, rfl⟩
  · have hQE : ∀ e ∈ (hmStream env name st msg sess2).1.events,
        isSendCallEvt e = false ∧ isCreateSessionEvt e = false := by
      intro e' he'
      exact ⟨(hmStream_no_stage env name st msg sess2 e' he').1,
        (hmStream_no_stage env name st msg sess2 e' he').2.1⟩
    have hP : ∀ e ∈ [Event.saveState (stampTarget env st msg), Event.typing] ++
        (selectSessionForMessage env (stampTarget env st msg)).1 ++
        (initWithRecovery env (stampTarget env st msg) sess u v).1,
        isSendCallEvt e = false := by
      intro e' he'
      rcases List.mem_append.mp he' with h | h
      · rcases List.mem_append.mp h with h1 | h1
        · simp only [List.mem_cons, List.not_mem_nil, or_false] at h1
          rcases h1 with rfl | rfl <;> rfl
        · exact hS e' h1
      · exact hI sess u v e' h
    rcases hrest with ⟨hfs, hr⟩ | ⟨e2, hfs, hr⟩
    · refine Or.inr ⟨[Event.saveState (stampTarget env st msg), Event.typing] ++
        (selectSessionForMessage env (stampTarget env st msg)).1 ++
        (initWithRecovery env (stampTarget env st msg) sess u v).1,
        Event.typingIntervalStart :: ((hmStream env name st msg sess2).1.events ++
          [Event.sessionCloseCall]), ?_, hP, ?_⟩
      · rw [hr]
        simp [List.append_assoc]
      · intro e' he'
        simp only [List.mem_cons] at he'
        rcases he' with rfl | h
        · exact ⟨rfl, rfl⟩
        · rcases List.mem_append.mp h with h1 | h1
          · exact hQE e' h1
          · simp only [List.mem_singleton] at h1
            rcases h1 with rfl; exact ⟨rfl, rfl⟩
    · refine Or.inr ⟨[Event.saveState (stampTarget env st msg), Event.typing] ++
        (selectSessionForMessage env (stampTarget env st msg)).1 ++
        (initWithRecovery env (stampTarget env st msg) sess u v).1,
        Event.typingIntervalStart :: ((hmStream env name st msg sess2).1.events ++
          ((reportError env msg e2 (hmStream env name st msg sess2).1.sIdx).1 ++
            [Event.sessionCloseCall])), ?_, hP, ?_⟩
      · rw [hr]
        simp [List.append_assoc]
      · intro e' he'
        simp only [List.mem_cons] at he'
        rcases he' with rfl | h
        · exact ⟨rfl, rfl⟩
        · rcases List.mem_append.mp h with h1 | h1
          · exact hQE e' h1
          · rcases List.mem_append.mp h1 with h2 | h2
            · simp only [reportError, List.mem_singleton] at h2
              rcases h2 with rfl; exact ⟨rfl, rfl⟩
            · simp only [List.mem_singleton] at h2
              rcases h2 with rfl; exact ⟨rfl, rfl⟩

theorem handleMessage_initCall_timeout (env : Env) (name : String) (st : AgentState)
    (msg : InboundMessage) :
    ∀ ms, Event.initCall ms ∈ (handleMessage env name st msg).2.1 → ms = initTimeoutMs := by
  intro ms hm
  have hSel : Event.initCall ms ∈
      (selectSessionForMessage env (stampTarget env st msg)).1 → ms = initTimeoutMs := by
    intro h
    rcases selectSessionForMessage_shape env (stampTarget env st msg) with
      ⟨w, t, hS⟩ | ⟨t, hS⟩ | hS <;> rw [hS] at h <;> simp at h
  have hIr : ∀ sess u v, Event.initCall ms ∈
      (initWithRecovery env (stampTarget env st msg) sess u v).1 → ms = initTimeoutMs := by
    intro sess u v h
    rcases initWithRecovery_shape env (stampTarget env st msg) sess u v with
      hI | ⟨aid, hI⟩ <;> rw [hI] at h <;> simpa using h
  have hEs : ∀ sess2, Event.initCall ms ∈ (hmStream env name st msg sess2).1.events →
      ms = initTimeoutMs := by
    intro sess2 h
    have := (hmStream_no_stage env name st msg sess2 _ h).2.2
    simp [isInitCallEvt] at this
  rcases handleMessage_cases env name st msg with
    ⟨e, hty, hr⟩ | ⟨hty, e, hse, hr⟩ | ⟨hty, sess, u, v, e, hse, hir, hr⟩ |
    ⟨hty, sess, u, v, sess2, e, hse, hir, hsend, hr⟩ |
    ⟨hty, sess, u, v, sess2, hse, hir, hsend, hrest⟩
  · rw [hr] at hm
    simp at hm
  · rw [hr] at hm
    rcases List.mem_append.mp hm with h | h
    · simp at h
    · exact hSel h
  · rw [hr] at hm
    rcases List.mem_append.mp hm with h | h
    · rcases List.mem_append.mp h with h1 | h1
      · rcases List.mem_append.mp h1 with h2 | h2
        · rcases List.mem_append.mp h2 with h3 | h3
          · simp at h3
          · exact hSel h3
        · exact hIr sess u v h2
      · simp [reportError] at h1
    · simp at h
  · rw [hr] at hm
    rcases List.mem_append.mp hm with h | h
    · rcases List.mem_append.mp h with h1 | h1
      · rcases List.mem_append.mp h1 with h2 | h2
        · rcases List.mem_append.mp h2 with h3 | h3
          · rcases List.mem_append.mp h3 with h4 | h4
            · simp at h4
            · exact hSel h4
          · exact hIr sess u v h3
        · simp at h2
      · simp [reportError] at h1
    · simp at h
  · rcases hrest with ⟨hfs, hr⟩ | ⟨e2, hfs, hr⟩ <;> rw [hr] at hm
    · rcases List.mem_append.mp hm with h | h
      · rcases List.mem_append.mp h with h1 | h1
        · rcases List.mem_append.mp h1 with h2 | h2
          · rcases List.mem_append.mp h2 with h3 | h3
            · rcases List.mem_append.mp h3 with h4 | h4
              · simp at h4
              · exact hSel h4
            · exact hIr sess u v h3
          · simp at h2
        · exact hEs sess2 h1
      · simp at h
    · rcases List.mem_append.mp hm with h | h
      · rcases List.mem_append.mp h with h1 | h1
        · rcases List.mem_append.mp h1 with h2 | h2
          · rcases List.mem_append.mp h2 with h3 | h3
            · rcases List.mem_append.mp h3 with h4 | h4
              · rcases List.mem_append.mp h4 with h5 | h5
                · simp at h5
                · exact hSel h5
              · exact hIr sess u v h4
            · simp at h3
          · exact hEs sess2 h2
        · simp [reportError] at h1
      · simp at h

/-- Claim C2, amended. In `handleMessage`, the send of the formatted message
text is governed by the same 30 s bound as session initialization (every
`initialize` and every `send` in the trace races the single
`initTimeoutMs = 30000` constant), but — unlike initialization — it is *not*
covered by the recreate-and-retry recovery: the remote `send` is attempted at
most once per message, always with the formatted envelope, and no
`createSession` recreation ever follows it; a send failure is unrecoverable
for that message. -/
theorem handleMessage_send_same_timeout_no_recreate (env : Env) (name : String)
    (st : AgentState) (msg : InboundMessage) :
    ((handleMessage env name st msg).2.1.countP isSendCallEvt ≤ 1) ∧
    (∀ txt ms, Event.sendCall txt ms ∈ (handleMessage env name st msg).2.1 →
      txt = env.formatEnvelope msg ∧ ms = initTimeoutMs) ∧
    (∀ ms, Event.initCall ms ∈ (handleMessage env name st msg).2.1 →
      ms = initTimeoutMs) ∧
    ((afterFirstSend (handleMessage env name st msg).2.1).countP isCreateSessionEvt = 0) := by
  obtain h | ⟨P, Q, hPQ, hP, hQ⟩ := handleMessage_send_suffix env name st msg
  · refine ⟨?_, ?_, handleMessage_initCall_timeout env name st msg, ?_⟩
    · rw [List.countP_eq_zero.mpr fun e he => by simp [h e he]]
      omega
    · intro txt ms hmem
      have := h _ hmem
      simp [isSendCallEvt] at this
    · rw [afterFirstSend_eq_nil h]
      rfl
  · refine ⟨?_, ?_, handleMessage_initCall_timeout env name st msg, ?_⟩
    · rw [hPQ, List.countP_append,
        List.countP_eq_zero.mpr fun e he => by simp [hP e he]]
      have h2 : Q.countP isSendCallEvt = 0 :=
        List.countP_eq_zero.mpr fun e he => by simp [(hQ e he).1]
      simp [List.countP_cons, h2, isSendCallEvt]
    · intro txt ms hmem
      rw [hPQ] at hmem
      rcases List.mem_append.mp hmem with h | h
      · have := hP _ h
        simp [isSendCallEvt] at this
      · rcases List.mem_cons.mp h with h1 | h1
        · cases h1
          exact ⟨rfl, rfl⟩
        · have := (hQ _ h1).1
          simp [isSendCallEvt] at this
    · rw [hPQ, afterFirstSend_append hP]
      have hstep : afterFirstSend
          (Event.sendCall (env.formatEnvelope msg) initTimeoutMs :: Q) = Q := rfl
      rw [hstep]
      exact List.countP_eq_zero.mpr fun e he => by simp [(hQ e he).2]

theorem handleMessage_send_same_timeout_no_recreate_witness :
    afterFirstSend (handleMessage c2Env ("agent") c2State cMsg).2.1 = [] ∨
    (afterFirstSend (handleMessage c2Env ("agent") c2State cMsg).2.1).countP
        isCreateSessionEvt = 0 :=
  Or.inr (handleMessage_send_same_timeout_no_recreate c2Env ("agent") c2State cMsg).2.2.2

/-- Counterexample to C2 as stated: the stored conversation `"c0"` is
resumed, initialization succeeds, `send` fails, and a stored agent identity
`"a0"` exists (recreating against it would succeed) — yet the code performs
no `createSession` and no second `send`; it reports the error text to the
adapter instead. -/
theorem c2_counterexample :
    ((handleMessage c2Env ("agent") c2State cMsg).2.1.countP isSendCallEvt = 1) ∧
    ((handleMessage c2Env ("agent") c2State cMsg).2.1.countP isCreateSessionEvt = 0) ∧
    (Event.adapterSendMsg ("c1") (("Error: ") ++ ("sendboom")) none ∈
      (handleMessage c2Env ("agent") c2State cMsg).2.1) ∧
    ((handleMessage c2Env ("agent") c2State cMsg).2.2 = Except.ok ()) := by
  refine ⟨?_, ?_, ?_, rfl⟩ <;> decide

/-- Claim C1, amended. For every inbound message whose session
initialization fails unrecoverably (selection succeeded but `initialize`
failed beyond the single recreate-and-retry — covering both "no stored
identity" and "retry also failed"), and whose adapter accepts the error
report: the
instance sends the error text verbatim (`Error: …`) to the originating
adapter, the promise returned by `processMessage` *resolves* — it does not
reject; the error is swallowed once reported, and it would reject only if
the report itself threw — and the queue proceeds to the next enqueued entry
regardless of this outcome. -/
theorem unrecoverable_failure_reports_and_resolves (env : Env) (name : String)
    (st : AgentState) (msg : InboundMessage) (e : String) (sess : SessHandle)
    (u v : Bool) (mid : String) (rest : List (Env × InboundMessage))
    (hty : env.adapter.typing = none)
    (hsel : (selectSessionForMessage env (stampTarget env st msg)).2 =
      Except.ok (sess, u, v))
    (hir : (initWithRecovery env (stampTarget env st msg) sess u v).2 =
      Except.error e)
    (hrep : env.adapter.send 0 = Except.ok mid) :
    (Event.adapterSendMsg msg.chatId (("Error: ") ++ e) msg.threadId ∈
      (handleMessage env name st msg).2.1) ∧
    ((handleMessage env name st msg).2.2 = Except.ok ()) ∧
    ((processQueue name ((env, msg) :: rest) st).2.2 =
      (handleMessage env name st msg).2.2 ::
        (processQueue name rest (handleMessage env name st msg).1).2.2) := by
  rcases handleMessage_cases env name st msg with
    ⟨e', hty', hr⟩ | ⟨hty', e', hse, hr⟩ | ⟨hty', sess', u', v', e', hse, hir', hr⟩ |
    ⟨hty', sess', u', v', sess2, e', hse, hir', hsend, hr⟩ |
    ⟨hty', sess', u', v', sess2, hse, hir', hsend, hrest⟩
  · rw [hty] at hty'
    cases hty'
  · rw [hsel] at hse
    cases hse
  · rw [hsel] at hse
    obtain ⟨rfl, rfl, rfl⟩ : sess' = sess ∧ u' = u ∧ v' = v := by
      have := (Except.ok.inj hse).symm
      exact ⟨congrArg Prod.fst this, congrArg (fun p => p.2.1) this,
        congrArg (fun p => p.2.2) this⟩
    rw [hir] at hir'
    obtain rfl : e' = e := (Except.error.inj hir').symm
    refine ⟨?_, ?_, ?_⟩
    · rw [hr]
      simp [reportError]
    · rw [hr]
      simp only [reportError]
      rw [hrep]
    · show (processQueue name ((env, msg) :: rest) st).2.2 = _
      rfl
  · rw [hsel] at hse
    obtain ⟨rfl, rfl, rfl⟩ : sess' = sess ∧ u' = u ∧ v' = v := by
      have := (Except.ok.inj hse).symm
      exact ⟨congrArg Prod.fst this, congrArg (fun p => p.2.1) this,
        congrArg (fun p => p.2.2) this⟩
    rw [hir] at hir'
    cases hir'
  · rw [hsel] at hse
    obtain ⟨rfl, rfl, rfl⟩ : sess' = sess ∧ u' = u ∧ v' = v := by
      have := (Except.ok.inj hse).symm
      exact ⟨congrArg Prod.fst this, congrArg (fun p => p.2.1) this,
        congrArg (fun p => p.2.2) this⟩
    rw [hir] at hir'
    cases hir'

theorem unrecoverable_failure_reports_and_resolves_witness :
    (Event.adapterSendMsg cMsg.chatId (("Error: ") ++ ("boom")) cMsg.threadId ∈
      (handleMessage c1Env ("agent") {} cMsg).2.1) ∧
    ((handleMessage c1Env ("agent") {} cMsg).2.2 = Except.ok ()) ∧
    ((processQueue ("agent") [(c1Env, cMsg)] {}).2.2 =
      (handleMessage c1Env ("agent") {} cMsg).2.2 ::
        (processQueue ("agent") [] (handleMessage c1Env ("agent") {} cMsg).1).2.2) :=
  unrecoverable_failure_reports_and_resolves c1Env ("agent") {} cMsg ("boom")
    (SessHandle.resumed ("a1")) false false ("m1") [] rfl rfl rfl rfl

/-- Counterexample to C1 as stated: with no stored identity, `createAgent`
succeeds but initializing the fresh session fails with `boom` — an
unrecoverable failure; the error text is sent to the adapter, yet the
promise returned by `processMessage` *resolves* (`Except.ok ()`), while the
claim requires it to reject with the causing error. -/
theorem c1_counterexample :
    ((handleMessage c1Env ("agent") {} cMsg).2.2 = Except.ok ()) ∧
    ((handleMessage c1Env ("agent") {} cMsg).2.2 ≠ Except.error ("boom")) ∧
    (Event.adapterSendMsg ("c1") (("Error: ") ++ ("boom")) none ∈
      (handleMessage c1Env ("agent") {} cMsg).2.1) := by
  refine ⟨rfl, ?_, by decide⟩
  intro h
  cases h

theorem handleSessionResult_no_adapter (env : Env) (name : String) (sb : SessionBehavior)
    (st : AgentState) :
    ∀ e ∈ (handleSessionResult env name sb st).2, isAdapterEvent e = false := by
  intro e he
  unfold handleSessionResult at he
  dsimp only at he
  rcases List.mem_append.mp he with h | h
  · rw [List.mem_singleton] at h
    subst h
    rfl
  · repeat' split at h
    all_goals first
      | (rw [List.mem_singleton] at h; subst h; rfl)
      | cases h

theorem sendStreamLoop_no_adapter (env : Env) (name : String) (sb : SessionBehavior) :
    ∀ (msgs : List StreamMsg) (resp : String) (stX : AgentState),
      ∀ e ∈ (sendStreamLoop env name sb msgs resp stX).2.2, isAdapterEvent e = false := by
  intro msgs
  induction msgs with
  | nil => intro resp stX e he; cases he
  | cons m rest ih =>
    intro resp stX e he
    cases m with
    | assistant content => exact ih (resp ++ content) stX e he
    | result => exact handleSessionResult_no_adapter env name sb stX e he
    | other => exact ih resp stX e he

theorem selectSessionForSend_no_adapter (env : Env) (s : AgentState) :
    ∀ e ∈ (selectSessionForSend env s).1, isAdapterEvent e = false := by
  intro e he
  unfold selectSessionForSend at he
  repeat' split at he
  all_goals simp only [List.mem_cons, List.mem_singleton, List.not_mem_nil, or_false] at he
  all_goals first
    | (rcases he with rfl | rfl <;> rfl)
    | (rcases he with rfl; rfl)

theorem sendWithRecovery_no_adapter (env : Env) (s : AgentState) (text : String)
    (sess : SessHandle) (u v : Bool) :
    ∀ e ∈ (sendWithRecovery env s text sess u v).1, isAdapterEvent e = false := by
  intro e he
  unfold sendWithRecovery at he
  repeat' split at he
  all_goals simp only [List.mem_cons, List.mem_singleton, List.not_mem_nil, or_false] at he
  all_goals first
    | (rcases he with rfl | rfl | rfl | rfl <;> rfl)
    | (rcases he with rfl; rfl)

theorem sendStreamLoop_concat (env : Env) (name : String) (sb : SessionBehavior) :
    ∀ (msgs : List StreamMsg) (resp : String) (stX : AgentState),
      msgs.dropLast.countP isResultMsg = 0 →
      (sendStreamLoop env name sb msgs resp stX).1 = resp ++ assistantConcat msgs := by
  intro msgs
  induction msgs with
  | nil =>
    intro resp stX _
    show resp = resp ++ assistantConcat []
    simp [assistantConcat]
  | cons m rest ih =>
    intro resp stX h
    cases m with
    | assistant content =>
      have hrest : rest.dropLast.countP isResultMsg = 0 := by
        cases rest with
        | nil => rfl
        | cons r rest' =>
          rw [List.dropLast_cons₂, List.countP_cons] at h
          omega
      show (sendStreamLoop env name sb rest (resp ++ content) stX).1 =
        resp ++ assistantConcat (StreamMsg.assistant content :: rest)
      rw [ih (resp ++ content) stX hrest]
      show (resp ++ content) ++ assistantConcat rest =
        resp ++ (content ++ assistantConcat rest)
      rw [String.append_assoc]
    | result =>
      cases rest with
      | nil =>
        show resp = resp ++ assistantConcat [StreamMsg.result]
        simp [assistantConcat]
      | cons r rest' =>
        exfalso
        rw [List.dropLast_cons₂, List.countP_cons] at h
        simp [isResultMsg] at h
    | other =>
      have hrest : rest.dropLast.countP isResultMsg = 0 := by
        cases rest with
        | nil => rfl
        | cons r rest' =>
          rw [List.dropLast_cons₂, List.countP_cons] at h
          omega
      show (sendStreamLoop env name sb rest resp stX).1 =
        resp ++ assistantConcat (StreamMsg.other :: rest)
      rw [ih resp stX hrest]
      rfl

/-- Claim C8. `sendToAgent` resolves its session by the same precedence as
`processMessage`'s `handleMessage` (its selection block returns the same
session handle and flags for every environment and state), applies the same
recovery decision on failure (its catch-block condition is the same function
of the `usedSpecific`/`usedDefault` flags and the stored identity), performs
no adapter side effects at all (its trace contains no message send/edit and
no typing-indicator event), and — result events being terminal in a stream —
its reply accumulation returns the concatenation of all assistant text
chunks streamed for the call. -/
theorem sendToAgent_refines_processMessage (env : Env) (name : String)
    (st : AgentState) (text : String) :
    ((selectSessionForSend env st).2 = (selectSessionForMessage env st).2) ∧
    (∀ u v a, sendRecoveryTarget u v a = msgRecoveryTarget u v a) ∧
    ((sendToAgent env name st text).2.1.countP isAdapterEvent = 0) ∧
    (∀ (sb : SessionBehavior) (msgs : List StreamMsg) (resp : String) (stX : AgentState),
      msgs.dropLast.countP isResultMsg = 0 →
      (sendStreamLoop env name sb msgs resp stX).1 = resp ++ assistantConcat msgs) := by
  refine ⟨?_, fun u v a => rfl, ?_, fun sb => sendStreamLoop_concat env name sb⟩
  · unfold selectSessionForSend selectSessionForMessage
    repeat' split
    all_goals rfl
  · unfold sendToAgent
    dsimp only
    cases hsel : (selectSessionForSend env st).2 with
    | error e =>
      exact List.countP_eq_zero.mpr fun e' he' => by
        simp [selectSessionForSend_no_adapter env st e' he']
    | ok p =>
      obtain ⟨sess, u, v⟩ := p
      dsimp only
      cases hsr : (sendWithRecovery env st text sess u v).2 with
      | error e =>
        refine List.countP_eq_zero.mpr fun e' he' => ?_
        rcases List.mem_append.mp he' with h | h
        · rcases List.mem_append.mp h with h1 | h1
          · simp [selectSessionForSend_no_adapter env st e' h1]
          · simp [sendWithRecovery_no_adapter env st text sess u v e' h1]
        · rw [List.mem_singleton] at h
          subst h
          decide
      | ok sess2 =>
        refine List.countP_eq_zero.mpr fun e' he' => ?_
        rcases List.mem_append.mp he' with h | h
        · rcases List.mem_append.mp h with h1 | h1
          · rcases List.mem_append.mp h1 with h2 | h2
            · simp [selectSessionForSend_no_adapter env st e' h2]
            · simp [sendWithRecovery_no_adapter env st text sess u v e' h2]
          · simp [sendStreamLoop_no_adapter env name (sessionBehaviorOf env sess2)
              (sessionBehaviorOf env sess2).stream ("") st e' h1]
        · rw [List.mem_singleton] at h
          subst h
          decide

theorem sendToAgent_refines_processMessage_witness :
    (sendStreamLoop c8Env ("agent") (c8Env.resumeBehavior ("x"))
        (c8Env.resumeBehavior ("x")).stream ("") c2State).1 =
      ("") ++ assistantConcat (c8Env.resumeBehavior ("x")).stream :=
  (sendToAgent_refines_processMessage c8Env ("agent") c2State ("ping")).2.2.2
    (c8Env.resumeBehavior ("x")) (c8Env.resumeBehavior ("x")).stream ("") c2State
    (by decide)

/-- The least submission index that may still emit events: the in-flight
entry if any, else the queue head, else the next index to be assigned. -/
def lowId (s : Sched) : Nat :=
  match s.current with
  | some c => c.1
  | none =>
    match s.queue with
    | p :: _ => p.1
    | [] => s.nextId

/-- Scheduler invariant: all indices are below `nextId`, the queue is
strictly increasing (FIFO in arrival order), and the in-flight entry was
submitted before everything still queued. -/
def SchedInv (s : Sched) : Prop :=
  (∀ p ∈ s.queue, p.1 < s.nextId) ∧
  (∀ c, s.current = some c → c.1 < s.nextId) ∧
  List.Pairwise (fun a b => a.1 < b.1) s.queue ∧
  (∀ c, s.current = some c → ∀ p ∈ s.queue, c.1 < p.1)

theorem schedStep_inv {s : Sched} {lbl : Option (Nat × Event)} {s' : Sched}
    (hstep : SchedStep s lbl s') (hinv : SchedInv s) :
    SchedInv s' ∧ lowId s ≤ lowId s' ∧ ∀ x, lbl = some x → x.1 = lowId s := by
  obtain ⟨h1, h2, h3, h4⟩ := hinv
  cases hstep with
  | arrive entry =>
    refine ⟨⟨?_, ?_, ?_, ?_⟩, ?_, by intro x hx; cases hx⟩
    · intro p hp
      rcases List.mem_append.mp hp with h | h
      · exact Nat.lt_succ_of_lt (h1 p h)
      · rw [List.mem_singleton] at h
        subst h
        exact Nat.lt_succ_self _
    · intro c hc
      exact Nat.lt_succ_of_lt (h2 c hc)
    · refine List.pairwise_append.mpr ⟨h3, List.pairwise_singleton _ _, ?_⟩
      intro a ha b hb
      rw [List.mem_singleton] at hb
      subst hb
      exact h1 a ha
    · intro c hc p hp
      rcases List.mem_append.mp hp with h | h
      · exact h4 c hc p h
      · rw [List.mem_singleton] at h
        subst h
        exact h2 c hc
    · unfold lowId
      cases hc : s.current with
      | some c => exact Nat.le_refl _
      | none =>
        cases hq : s.queue with
        | cons p rest => exact Nat.le_refl _
        | nil => exact Nat.le_refl _
  | start id entry rest hq hc =>
    refine ⟨⟨?_, ?_, ?_, ?_⟩, ?_, by intro x hx; cases hx⟩
    · intro p hp
      exact h1 p (hq ▸ List.mem_cons_of_mem _ hp)
    · intro c hcc
      cases hcc
      exact h1 (id, entry) (hq ▸ List.mem_cons_self _ _)
    · have := hq ▸ h3
      exact (List.pairwise_cons.mp this).2
    · intro c hcc p hp
      cases hcc
      have := hq ▸ h3
      exact (List.pairwise_cons.mp this).1 p hp
    · unfold lowId
      rw [hc, hq]
  | emit id e rest stDone hc =>
    refine ⟨⟨h1, ?_, h3, ?_⟩, ?_, ?_⟩
    · intro c hcc
      cases hcc
      exact h2 (id, e :: rest, stDone) hc
    · intro c hcc p hp
      cases hcc
      exact h4 (id, e :: rest, stDone) hc p hp
    · unfold lowId
      rw [hc]
    · intro x hx
      cases hx
      unfold lowId
      rw [hc]
  | finish id stDone hc =>
    refine ⟨⟨h1, ?_, h3, ?_⟩, ?_, by intro x hx; cases hx⟩
    · intro c hcc
      cases hcc
    · intro c hcc
      cases hcc
    · unfold lowId
      rw [hc]
      cases hq : s.queue with
      | cons p rest => exact Nat.le_of_lt (h4 _ hc p (hq ▸ List.mem_cons_self _ _))
      | nil => exact Nat.le_of_lt (h2 _ hc)

theorem schedRun_mono {s : Sched} {tr : List (Nat × Event)} {s' : Sched}
    (hrun : SchedRun s tr s') :
    SchedInv s →
      List.Pairwise (fun a b : Nat × Event => a.1 ≤ b.1) tr ∧
        ∀ x ∈ tr, lowId s ≤ x.1 := by
  induction hrun with
  | done s => exact fun _ => ⟨List.Pairwise.nil, by simp⟩
  | step s1 lbl s2 tr s3 hstep hrun2 ih =>
    intro hinv
    obtain ⟨hinv2, hlow, hlbl⟩ := schedStep_inv hstep hinv
    obtain ⟨hpw, hbound⟩ := ih hinv2
    cases lbl with
    | none => exact ⟨hpw, fun x hx => Nat.le_trans hlow (hbound x hx)⟩
    | some x =>
      refine ⟨List.pairwise_cons.mpr ⟨?_, hpw⟩, ?_⟩
      · intro y hy
        rw [hlbl x rfl]
        exact Nat.le_trans hlow (hbound y hy)
      · intro y hy
        rcases List.mem_cons.mp hy with heq | hy2
        · subst heq
          rw [hlbl y rfl]
        · exact Nat.le_trans hlow (hbound y hy2)

/-- Claim C3. Per-instance serialization in submission order: entries are
stamped with their arrival index, an entry may only start when no other is
in flight, and its whole `handleMessage` trace (through reply delivery) must
be emitted before the scheduler can finish it and start another.
Consequently, in every interleaved run of a single `AgentInstance`'s
scheduler from the idle initial state, the submission indices along the
emitted event trace are nondecreasing: no collaborator event — in particular
no remote interaction — of a later-submitted message ever occurs before an
earlier-submitted message's full handling has completed or failed. -/
theorem queue_serializes_in_submission_order (name : String) (st0 : AgentState)
    (tr : List (Nat × Event)) (s' : Sched)
    (hrun : SchedRun (initialSched name st0) tr s') :
    List.Pairwise (fun a b : Nat × Event => a.1 ≤ b.1) tr :=
  (schedRun_mono hrun ⟨by simp [initialSched], by simp [initialSched],
    by simp [initialSched], by simp [initialSched]⟩).1

theorem queue_serializes_in_submission_order_witness :
    List.Pairwise (fun a b : Nat × Event => a.1 ≤ b.1)
      [(0, Event.saveState (stampTarget c1Env {} cMsg))] :=
  queue_serializes_in_submission_order ("agent") {}
    [(0, Event.saveState (stampTarget c1Env {} cMsg))] _
    (SchedRun.step _ none _ _ _
      (SchedStep.arrive (initialSched ("agent") {}) ⟨c1Env, cMsg⟩)
      (SchedRun.step _ none _ _ _
        (SchedStep.start _ 0 ⟨c1Env, cMsg⟩ [] rfl rfl)
        (SchedRun.step _ (some (0, Event.saveState (stampTarget c1Env {} cMsg))) _ _ _
          (SchedStep.emit _ 0 (Event.saveState (stampTarget c1Env {} cMsg))
            ((handleMessage c1Env ("agent") {} cMsg).2.1.tail)
            ((handleMessage c1Env ("agent") {} cMsg).1) rfl)
          (SchedRun.done _))))
